import Mathlib

/-!
Verification of the SENSE device automation engine.

The definitions below are a shallow embedding of `src/control.py`
(class `DeviceController`) and of the status/alert helpers in `src/db.py`.
SQLite tables become Lean lists of structures, `datetime` values become
integer timestamps, and each method becomes a pure state-transforming
function.  SQL `UPDATE ... WHERE id = ?` becomes a `List.map` that rewrites
the rows whose key matches, `SELECT ... WHERE p` becomes `List.filter`,
`fetchone` becomes `List.find?`, and a Python loop over a fetched snapshot
becomes `List.foldl` over the snapshot list.
-/

/-! ## Decimal rendering of identifiers

Python renders integers inside f-strings (for example
`f"Empty room auto-control: Device {device_id}"`) in standard decimal
notation.  `natStr` is that decimal rendering, written with explicit fuel so
that it reduces inside the kernel. -/

def natStrAux : Nat → Nat → List Char
  | 0, _ => []
  | fuel + 1, n =>
    if n < 10 then [Nat.digitChar n]
    else natStrAux fuel (n / 10) ++ [Nat.digitChar (n % 10)]

/-- Decimal rendering of a natural number, as Python `str()` produces it. -/
def natStr (n : Nat) : String := ⟨natStrAux (n + 1) n⟩

/-! ## Data model

Rooms and devices as `control.py` reads them.  The `rooms` table used by
`DeviceController` exposes `id`, `room_number`, `occupancy`, `is_critical`,
`is_vip`, `building_id` and `floor`; the `devices` table exposes `id`,
`room_id`, `device_name`, `device_type`, `is_on`, `last_switched` and
`status`.  `activity_logs` rows carry `user_id`, `action` and `details`.
`system_alerts` rows follow the schema in `src/db.py` (`create_database`);
no code path in `control.py` ever writes to that table. -/

structure Room where
  id : Nat
  room_number : Nat
  occupancy : Nat
  is_critical : Bool
  is_vip : Bool
  building_id : Nat
  floor : Nat
deriving DecidableEq

structure Device where
  id : Nat
  room_id : Nat
  device_name : String
  device_type : String
  is_on : Bool
  last_switched : Int
  status : String
deriving DecidableEq

structure LogEntry where
  user_id : Nat
  action : String
  details : String
deriving DecidableEq

structure SystemAlertRow where
  alert_type : String
  title : String
  message : String
  room_id : Option Nat
  device_id : Option String
  is_read : Bool
deriving DecidableEq

structure DBState where
  rooms : List Room
  devices : List Device
  logs : List LogEntry
  alerts : List SystemAlertRow
deriving DecidableEq

/-- Row of the device with the given id, as a `SELECT ... WHERE id = ?`
followed by `fetchone` returns it. -/
def devById (s : DBState) (i : Nat) : Option Device :=
  s.devices.find? (fun d => d.id == i)

/-! ## Log and alert payloads written by `control.py` -/

/-- Details string of an "Auto OFF" log entry
(`f"Empty room auto-control: Device {device_id}"`). -/
def autoDetails (i : Nat) : String :=
  "Empty room auto-control: Device " ++ natStr i

/-- Activity-log row written by the empty-room rule. -/
def autoLog (i : Nat) : LogEntry := ⟨1, "Auto OFF", autoDetails i⟩

/-- Details string of an "AC Rotation" log entry
(`f"Room {room_id}: AC {ac_id} -> AC {replacement_id}"`). -/
def rotDetails (rid x y : Nat) : String :=
  "Room " ++ natStr rid ++ ": AC " ++ natStr x ++ " -> AC " ++ natStr y

/-- Activity-log row written by the AC rotation rule. -/
def rotLog (rid x y : Nat) : LogEntry := ⟨1, "AC Rotation", rotDetails rid x y⟩

/-- Python `str()` of an optional argument: `None` renders as "None". -/
def optStr : Option Nat → String
  | none => "None"
  | some v => natStr v

/-- Details string of an "Emergency Shutdown" log entry
(`f"Building: {building_id}, Floor: {floor}"`). -/
def shutDetails (b f : Option Nat) : String :=
  "Building: " ++ optStr b ++ ", Floor: " ++ optStr f

/-- Activity-log row written by `emergency_shutdown`. -/
def shutLog (b f : Option Nat) : LogEntry := ⟨1, "Emergency Shutdown", shutDetails b f⟩

/-! ## Rule A: empty-room auto-off (`auto_control_empty_rooms`) -/

/-- Effect of `UPDATE devices SET is_on = FALSE, last_switched = ? WHERE id = ?`
on one row. -/
def updOff (now : Int) (i : Nat) (e : Device) : Device :=
  if e.id == i then { e with is_on := false, last_switched := now } else e

/-- Effect of `UPDATE devices SET is_on = TRUE, last_switched = ? WHERE id = ?`
on one row. -/
def updOn (now : Int) (i : Nat) (e : Device) : Device :=
  if e.id == i then { e with is_on := true, last_switched := now } else e

/-- Membership test `device_type in ['light', 'fan', 'projector']`. -/
def autoControllable (t : String) : Bool :=
  t == "light" || t == "fan" || t == "projector"

/-- Body of the inner device loop of `auto_control_empty_rooms`: switch the
device off and log the action when its type is auto-controllable. -/
def autoOffStep (now : Int) (st : DBState) (dev : Device) : DBState :=
  if autoControllable dev.device_type then
    { st with
        devices := st.devices.map (updOff now dev.id),
        logs := st.logs ++ [autoLog dev.id] }
  else st

/-- One room iteration of `auto_control_empty_rooms`: fetch the devices that
are ON in the room, then run the device loop over that snapshot. -/
def autoOffRoom (now : Int) (st : DBState) (rid : Nat) : DBState :=
  (st.devices.filter (fun d => d.room_id == rid && d.is_on)).foldl (autoOffStep now) st

/-- `DeviceController.auto_control_empty_rooms`: when the rule is active,
select the rooms with `occupancy = 0 AND is_critical = FALSE` (the computed
15-minute threshold is never used by the query) and run the device loop for
each.  The room list is fetched once, before the loop. -/
def auto_control_empty_rooms (active : Bool) (now : Int) (s : DBState) : DBState :=
  if active then
    (s.rooms.filter (fun r => r.occupancy == 0 && r.is_critical == false)).foldl
      (fun st r => autoOffRoom now st r.id) s
  else s

/-! ## Rule B: AC rotation (`ac_rotation_system`) -/

/-- Rotation threshold: 8 hours, in seconds. -/
def eightHours : Int := 8 * 60 * 60

/-- Replacement-candidate test of the rotation rule:
`room_id = ? AND device_type = 'ac' AND is_on = FALSE AND status = 'active'`. -/
def candP (rid : Nat) (d : Device) : Bool :=
  d.room_id == rid && d.device_type == "ac" && d.is_on == false && d.status == "active"

/-- `ORDER BY last_switched ASC LIMIT 1` over the candidate rows: the first
row with minimal `last_switched`. -/
def selectReplacement (devs : List Device) (rid : Nat) : Option Device :=
  (devs.filter (candP rid)).foldl
    (fun acc d =>
      match acc with
      | none => some d
      | some b => if d.last_switched < b.last_switched then some d else some b)
    none

/-- Overdue test of the rotation rule:
`device_type = 'ac' AND is_on = TRUE AND last_switched < now - 8 hours`. -/
def overdueP (now : Int) (d : Device) : Bool :=
  d.device_type == "ac" && d.is_on && decide (d.last_switched < now - eightHours)

/-- Body of the rotation loop for one overdue AC: look for a replacement in
the same room; when one exists, switch the overdue AC off, the replacement
on (both stamped with the same instant) and write one log row.  When no
replacement exists, nothing at all happens for this AC. -/
def rotateOne (now : Int) (st : DBState) (ac : Device) : DBState :=
  match selectReplacement st.devices ac.room_id with
  | none => st
  | some repl =>
    { st with
        devices := (st.devices.map (updOff now ac.id)).map (updOn now repl.id),
        logs := st.logs ++ [rotLog ac.room_id ac.id repl.id] }

/-- `DeviceController.ac_rotation_system`: when the rule is active, fetch the
snapshot of overdue ACs and run the rotation loop over it.  The query has no
condition on the critical flag of the room. -/
def ac_rotation_system (active : Bool) (now : Int) (s : DBState) : DBState :=
  if active then (s.devices.filter (overdueP now)).foldl (rotateOne now) s else s

/-! ## Toggle command (`toggle_device`) -/

/-- `DeviceController.get_room_by_device`: join the device row with its room
row and return the room part. -/
def get_room_by_device (s : DBState) (i : Nat) : Option Room :=
  match s.devices.find? (fun d => d.id == i) with
  | none => none
  | some d => s.rooms.find? (fun r => r.id == d.room_id)

/-- `DeviceController.log_vip_access`: append one "VIP Access" log row. -/
def log_vip_access (s : DBState) (user_id i : Nat) : DBState :=
  { s with logs := s.logs ++ [⟨user_id, "VIP Access", "VIP room device control: Device " ++ natStr i⟩] }

/-- Modelled from the spec: `SenseDB.toggle_device`.  The class `SenseDB` is
imported by `control.py` but is absent from the sources; per the spec the
store-level toggle applies the state change, updates the status timestamp
and returns the new state, and reports failure (`None`) when the device is
missing. -/
def db_toggle_device (s : DBState) (i : Nat) (now : Int) : Option Bool × DBState :=
  match s.devices.find? (fun d => d.id == i) with
  | none => (none, s)
  | some d =>
    (some (!d.is_on),
     { s with
         devices := s.devices.map (fun e =>
           if e.id == i then { e with is_on := !d.is_on, last_switched := now } else e) })

/-- `DeviceController.toggle_device`: resolve the room, reject when it is
missing, reject when the room is critical and `force` is not set, log VIP
access when the room is VIP, then delegate to the store-level toggle. -/
def toggle_device (s : DBState) (i user_id : Nat) (force : Bool) (now : Int) :
    (Bool × String) × DBState :=
  match get_room_by_device s i with
  | none => ((false, "Device not found"), s)
  | some room =>
    if room.is_critical && !force then
      ((false, "Critical room - Admin permission required"), s)
    else
      let s1 := if room.is_vip then log_vip_access s user_id i else s
      match db_toggle_device s1 i now with
      | (some ns, s2) => ((true, if ns then "Device ON" else "Device OFF"), s2)
      | (none, s2) => ((false, "Failed to toggle device"), s2)

/-! ## Rule C: emergency shutdown (`emergency_shutdown`) -/

/-- Python truthiness of the optional `building_id` / `floor` arguments:
`None` and `0` are falsy, so the corresponding SQL condition is only added
for a non-zero argument. -/
def truthy : Option Nat → Bool
  | none => false
  | some v => v != 0

/-- Room-scope condition assembled by `emergency_shutdown`:
`is_critical = FALSE`, plus `building_id = ?` and `floor = ?` only when the
corresponding argument is truthy. -/
def shutScope (b f : Option Nat) (r : Room) : Bool :=
  r.is_critical == false
    && (if truthy b then r.building_id == b.getD 0 else true)
    && (if truthy f then r.floor == f.getD 0 else true)

/-- `DeviceController.emergency_shutdown`: switch off every device whose room
is in scope, stamping `last_switched`, then write one summary log row. -/
def emergency_shutdown (now : Int) (b f : Option Nat) (s : DBState) : DBState :=
  { s with
      devices := s.devices.map (fun d =>
        if (s.rooms.filter (shutScope b f)).any (fun r => r.id == d.room_id) then
          { d with is_on := false, last_switched := now }
        else d),
      logs := s.logs ++ [shutLog b f] }

/-! ## `src/db.py`: `update_device_status` and `add_system_alert`

These module-level helpers use the schema of `create_database` in
`src/db.py`: `device_status` is keyed by a TEXT `device_id`, and
`system_alerts` rows are inserted unread.  `REAL`-typed settings are
modelled as integers; no claim depends on their arithmetic. -/

structure DeviceStatusRow where
  device_id : String
  is_on : Bool
  last_switched_on : Option Int := none
  last_switched_off : Option Int := none
  runtime_minutes : Int := 0
  switch_count : Int := 0
  temperature_setting : Option Int := none
  speed_setting : Option Int := none
  updated_at : Int
deriving DecidableEq

/-- Keyword arguments recognised by `update_device_status`; any field not
passed is left untouched by the dynamically-built UPDATE. -/
structure StatusKwargs where
  runtime_minutes : Option Int := none
  switch_count : Option Int := none
  temperature_setting : Option Int := none
  speed_setting : Option Int := none
deriving DecidableEq

/-- Effect of the dynamically-built UPDATE of `update_device_status` on one
matching row: set `is_on`, stamp `last_switched_on` when switching on and
`last_switched_off` otherwise, apply the recognised keyword fields, stamp
`updated_at`. -/
def applyStatus (now : Int) (b : Bool) (kw : StatusKwargs) (r : DeviceStatusRow) :
    DeviceStatusRow :=
  let r1 := { r with is_on := b }
  let r2 :=
    if b then { r1 with last_switched_on := some now }
    else { r1 with last_switched_off := some now }
  let r3 :=
    match kw.runtime_minutes with
    | some v => { r2 with runtime_minutes := v }
    | none => r2
  let r4 :=
    match kw.switch_count with
    | some v => { r3 with switch_count := v }
    | none => r3
  let r5 :=
    match kw.temperature_setting with
    | some v => { r4 with temperature_setting := v }
    | none => r4
  let r6 :=
    match kw.speed_setting with
    | some v => { r5 with speed_setting := v }
    | none => r5
  { r6 with updated_at := now }

/-- `update_device_status` from `src/db.py`: run the UPDATE; when it matched
no row (`cursor.rowcount == 0`), INSERT a fresh row carrying only
`device_id` and `is_on`, every other column keeping its schema default.
The function never consults the `devices` table and returns `True` on every
path that reaches the commit. -/
def update_device_status (now : Int) (dev : String) (b : Bool) (kw : StatusKwargs)
    (tbl : List DeviceStatusRow) : Bool × List DeviceStatusRow :=
  if tbl.countP (fun r => r.device_id == dev) == 0 then
    (true, tbl ++ [{ device_id := dev, is_on := b, updated_at := now }])
  else
    (true, tbl.map (fun r => if r.device_id == dev then applyStatus now b kw r else r))

/-- `add_system_alert` from `src/db.py`: append one unread alert row. -/
def add_system_alert (title message atype : String) (rid : Option Nat)
    (did : Option String) (tbl : List SystemAlertRow) : Bool × List SystemAlertRow :=
  (true, tbl ++ [⟨atype, title, message, rid, did, false⟩])

/-! ## Shape predicates used by the frame lemmas -/

/-- A row transformer that can only change `is_on` and `last_switched`:
exactly the shape of every SQL UPDATE issued by the automation rules. -/
def ShapeG (G : Device → Device) : Prop :=
  ∀ e : Device, (G e).id = e.id ∧ (G e).room_id = e.room_id ∧
    (G e).device_type = e.device_type ∧ (G e).status = e.status ∧
    (G e).device_name = e.device_name

/-! ## Concrete states used by the claim evaluations -/

/-- Critical room whose lone running AC is overdue while a spare is idle. -/
def critRoom1 : Room := ⟨1, 101, 0, true, false, 1, 1⟩

def acOn1 : Device := ⟨1, 1, "AC-1", "ac", true, 0, "active"⟩

def acOff2 : Device := ⟨2, 1, "AC-2", "ac", false, 0, "active"⟩

def sCrit : DBState := ⟨[critRoom1], [acOn1, acOff2], [], []⟩

/-- One room with two overdue ACs and two idle spares. -/
def sTwoOverdue : DBState :=
  ⟨[⟨1, 101, 5, false, false, 1, 1⟩],
   [⟨1, 1, "AC-1", "ac", true, 0, "active"⟩,
    ⟨2, 1, "AC-2", "ac", true, 0, "active"⟩,
    ⟨3, 1, "AC-3", "ac", false, 0, "active"⟩,
    ⟨4, 1, "AC-4", "ac", false, 5, "active"⟩], [], []⟩

/-- Two rooms, each with one overdue AC; room 1 also holds an idle spare, a
retired AC and a fan. -/
def sRotW : DBState :=
  ⟨[⟨1, 101, 5, false, false, 1, 1⟩, ⟨2, 102, 5, false, false, 1, 1⟩],
   [⟨1, 1, "AC-1", "ac", true, 0, "active"⟩,
    ⟨2, 1, "AC-2", "ac", false, 5, "active"⟩,
    ⟨3, 1, "AC-3", "ac", false, 9, "retired"⟩,
    ⟨4, 1, "Fan-1", "fan", true, 0, "active"⟩,
    ⟨5, 2, "AC-5", "ac", true, 0, "active"⟩,
    ⟨6, 2, "AC-6", "ac", false, 0, "active"⟩], [], []⟩

def acRotW : Device := ⟨1, 1, "AC-1", "ac", true, 0, "active"⟩

/-- Room with one overdue AC and no eligible replacement. -/
def sNoSpare : DBState :=
  ⟨[⟨1, 101, 3, false, false, 1, 1⟩],
   [⟨1, 1, "AC-1", "ac", true, 0, "active"⟩,
    ⟨2, 1, "Fan-1", "fan", false, 0, "active"⟩], [], []⟩

def acNoSpare : Device := ⟨1, 1, "AC-1", "ac", true, 0, "active"⟩

/-- Critical room holding device 7; device 99 does not exist. -/
def sTog : DBState :=
  ⟨[⟨1, 101, 0, true, false, 1, 1⟩], [⟨7, 1, "Fan-7", "fan", true, 0, "active"⟩], [], []⟩

/-- Room that just became empty (occupancy 0) with one running fan. -/
def sEmptyNow : DBState :=
  ⟨[⟨1, 101, 0, false, false, 1, 1⟩], [⟨1, 1, "Fan-1", "fan", true, 0, "active"⟩], [], []⟩

def fanC6 : Device := ⟨1, 1, "Fan-1", "fan", true, 0, "active"⟩

def acC6 : Device := ⟨2, 1, "AC-1", "ac", true, 0, "active"⟩

def lightC6 : Device := ⟨3, 1, "Light-1", "light", true, 0, "active"⟩

/-- Two empty rooms: room 1 holds a running fan, AC and light; room 2 holds
a running light of its own. -/
def sAutoW : DBState :=
  ⟨[⟨1, 101, 0, false, false, 1, 1⟩, ⟨2, 102, 0, false, false, 1, 1⟩],
   [fanC6, acC6, lightC6, ⟨4, 2, "Light-2", "light", true, 0, "active"⟩], [], []⟩

/-- Building 1 with a normal and a critical room, building 2 with a normal
room, plus a device whose room id matches no room. -/
def sShutW : DBState :=
  ⟨[⟨1, 101, 5, false, false, 1, 1⟩, ⟨2, 102, 0, true, false, 1, 2⟩,
    ⟨3, 201, 0, false, false, 2, 1⟩],
   [⟨1, 1, "Fan-1", "fan", true, 0, "active"⟩,
    ⟨2, 2, "Server-AC", "ac", true, 0, "active"⟩,
    ⟨3, 3, "Fan-3", "fan", true, 0, "active"⟩,
    ⟨4, 9, "Orphan", "fan", true, 0, "active"⟩], [], []⟩

def rowStatus : DeviceStatusRow := ⟨"d1", true, some 100, none, 0, 5, none, none, 100⟩

def tblStatus : List DeviceStatusRow := [rowStatus]

/-! # Theorems

First a small theory of the decimal rendering `natStr`, needed to tell log
entries of different rooms and devices apart. -/

theorem list_append_cancel {α : Type} (as bs cs : List α)
    (h : as ++ bs = as ++ cs) : bs = cs := by
  induction as with
  | nil => simpa using h
  | cons a t ih => exact ih (by simpa using h)

theorem digitChar_inj10 : ∀ a, a < 10 → ∀ b, b < 10 →
    Nat.digitChar a = Nat.digitChar b → a = b := by decide

theorem digitChar_isDigit : ∀ a, a < 10 → (Nat.digitChar a).isDigit = true := by decide

theorem map_digitChar_inj : ∀ xs ys : List Nat, (∀ x ∈ xs, x < 10) →
    (∀ y ∈ ys, y < 10) → xs.map Nat.digitChar = ys.map Nat.digitChar → xs = ys := by
  intro xs
  induction xs with
  | nil =>
    intro ys _ _ h
    cases ys with
    | nil => rfl
    | cons b u => simp at h
  | cons a t ih =>
    intro ys hx hy h
    cases ys with
    | nil => simp at h
    | cons b u =>
      simp only [List.map_cons, List.cons.injEq] at h
      have hab : a = b :=
        digitChar_inj10 a (hx a (by simp)) b (hy b (by simp)) h.1
      have ht : t = u :=
        ih u (fun x hm => hx x (by simp [hm])) (fun y hm => hy y (by simp [hm])) h.2
      rw [hab, ht]

theorem natStrAux_spec : ∀ (n fuel : Nat), n < fuel → 0 < n →
    natStrAux fuel n = (Nat.digits 10 n).reverse.map Nat.digitChar := by
  intro n
  induction n using Nat.strong_induction_on with
  | _ n ih =>
    intro fuel hlt hpos
    match fuel, hlt with
    | fuel + 1, hlt =>
      by_cases h10 : n < 10
      · have hdig : Nat.digits 10 n = [n] :=
          Nat.digits_of_lt 10 n (Nat.pos_iff_ne_zero.mp hpos) h10
        simp [natStrAux, h10, hdig]
      · have h10le : 10 ≤ n := Nat.le_of_not_lt h10
        have hdivpos : 0 < n / 10 := Nat.div_pos h10le (by norm_num)
        have hdivlt : n / 10 < n := Nat.div_lt_self hpos (by norm_num)
        have hdivfuel : n / 10 < fuel :=
          Nat.lt_of_lt_of_le hdivlt (Nat.lt_succ_iff.mp hlt)
        have hrec := ih (n / 10) hdivlt fuel hdivfuel hdivpos
        have hdig : Nat.digits 10 n = n % 10 :: Nat.digits 10 (n / 10) :=
          Nat.digits_def' (by norm_num) hpos
        simp [natStrAux, h10, hrec, hdig, List.reverse_cons]

theorem natStr_data_pos (n : Nat) (hpos : 0 < n) :
    (natStr n).data = (Nat.digits 10 n).reverse.map Nat.digitChar := by
  show natStrAux (n + 1) n = _
  exact natStrAux_spec n (n + 1) (Nat.lt_succ_self n) hpos

theorem natStr_inj : ∀ m n : Nat, natStr m = natStr n → m = n := by
  intro m n h
  have hd : (natStr m).data = (natStr n).data := congrArg String.data h
  rcases Nat.eq_zero_or_pos m with hm | hm <;> rcases Nat.eq_zero_or_pos n with hn | hn
  · rw [hm, hn]
  · subst hm
    rw [natStr_data_pos n hn] at hd
    have hz : (natStr 0).data = Nat.digitChar 0 :: [] := rfl
    rw [hz] at hd
    have hb : ∀ y ∈ (Nat.digits 10 n).reverse, y < 10 := by
      intro y hy
      exact Nat.digits_lt_base (by norm_num) (List.mem_reverse.mp hy)
    have heq : ([0] : List Nat) = (Nat.digits 10 n).reverse :=
      map_digitChar_inj [0] (Nat.digits 10 n).reverse (by decide) hb hd
    have hrev : Nat.digits 10 n = [0] := by
      have := congrArg List.reverse heq
      simpa using this.symm
    have hzero : n = 0 := by
      have hofd := Nat.ofDigits_digits 10 n
      rw [hrev] at hofd
      simpa [Nat.ofDigits] using hofd.symm
    omega
  · subst hn
    rw [natStr_data_pos m hm] at hd
    have hz : (natStr 0).data = Nat.digitChar 0 :: [] := rfl
    rw [hz] at hd
    have hb : ∀ y ∈ (Nat.digits 10 m).reverse, y < 10 := by
      intro y hy
      exact Nat.digits_lt_base (by norm_num) (List.mem_reverse.mp hy)
    have heq : (Nat.digits 10 m).reverse = [0] :=
      map_digitChar_inj (Nat.digits 10 m).reverse [0] hb (by decide) hd
    have hrev : Nat.digits 10 m = [0] := by
      have := congrArg List.reverse heq
      simpa using this
    have hzero : m = 0 := by
      have hofd := Nat.ofDigits_digits 10 m
      rw [hrev] at hofd
      simpa [Nat.ofDigits] using hofd.symm
    omega
  · rw [natStr_data_pos m hm, natStr_data_pos n hn] at hd
    have hbm : ∀ y ∈ (Nat.digits 10 m).reverse, y < 10 := by
      intro y hy
      exact Nat.digits_lt_base (by norm_num) (List.mem_reverse.mp hy)
    have hbn : ∀ y ∈ (Nat.digits 10 n).reverse, y < 10 := by
      intro y hy
      exact Nat.digits_lt_base (by norm_num) (List.mem_reverse.mp hy)
    have heq := map_digitChar_inj _ _ hbm hbn hd
    have hdig : Nat.digits 10 m = Nat.digits 10 n := by
      have := congrArg List.reverse heq
      simpa using this
    have := congrArg (Nat.ofDigits 10) hdig
    rwa [Nat.ofDigits_digits, Nat.ofDigits_digits] at this

theorem natStr_all_digit : ∀ n : Nat, ∀ c ∈ (natStr n).data, c.isDigit = true := by
  intro n c hc
  rcases Nat.eq_zero_or_pos n with hn | hn
  · subst hn
    have : c = Nat.digitChar 0 := by
      have hz : (natStr 0).data = Nat.digitChar 0 :: [] := rfl
      rw [hz] at hc
      simpa using hc
    rw [this]
    decide
  · rw [natStr_data_pos n hn] at hc
    rcases List.mem_map.mp hc with ⟨d, hdm, hdc⟩
    have hdlt : d < 10 := Nat.digits_lt_base (by norm_num) (List.mem_reverse.mp hdm)
    rw [← hdc]
    exact digitChar_isDigit d hdlt

theorem digit_split : ∀ (xs ys : List Char) (c d : Char) (s t : List Char),
    (∀ a ∈ xs, a.isDigit = true) → (∀ a ∈ ys, a.isDigit = true) →
    c.isDigit = false → d.isDigit = false →
    xs ++ c :: s = ys ++ d :: t → xs = ys ∧ c = d ∧ s = t := by
  intro xs
  induction xs with
  | nil =>
    intro ys c d s t _ hy hc hd h
    cases ys with
    | nil =>
      simp only [List.nil_append, List.cons.injEq] at h
      exact ⟨rfl, h.1, h.2⟩
    | cons b u =>
      simp only [List.nil_append, List.cons_append, List.cons.injEq] at h
      have : b.isDigit = true := hy b (by simp)
      rw [← h.1] at this
      rw [this] at hc
      cases hc
  | cons a xt ih =>
    intro ys c d s t hx hy hc hd h
    cases ys with
    | nil =>
      simp only [List.cons_append, List.nil_append, List.cons.injEq] at h
      have : a.isDigit = true := hx a (by simp)
      rw [h.1] at this
      rw [this] at hd
      cases hd
    | cons b u =>
      simp only [List.cons_append, List.cons.injEq] at h
      have hrest := ih u c d s t (fun z hz => hx z (by simp [hz]))
        (fun z hz => hy z (by simp [hz])) hc hd h.2
      exact ⟨by rw [h.1, hrest.1], hrest.2.1, hrest.2.2⟩

theorem strData_append : ∀ a b : String, (a ++ b).data = a.data ++ b.data := by
  intro a b
  cases a
  cases b
  rfl

theorem str_ext : ∀ a b : String, a.data = b.data → a = b := by
  intro a b h
  cases a
  cases b
  exact congrArg String.mk h

theorem autoDetails_inj (i j : Nat) (h : autoDetails i = autoDetails j) : i = j := by
  have hd := congrArg String.data h
  simp only [autoDetails, strData_append] at hd
  exact natStr_inj i j (str_ext _ _ (list_append_cancel _ _ _ hd))

theorem rotDetails_inj (r1 x1 y1 r2 x2 y2 : Nat)
    (h : rotDetails r1 x1 y1 = rotDetails r2 x2 y2) : r1 = r2 ∧ x1 = x2 ∧ y1 = y2 := by
  have hd := congrArg String.data h
  simp only [rotDetails, strData_append, List.append_assoc] at hd
  have h1 := list_append_cancel (['R', 'o', 'o', 'm', ' '] : List Char) _ _ hd
  simp only [List.cons_append, List.nil_append] at h1
  have h2 := digit_split _ _ _ _ _ _ (natStr_all_digit r1) (natStr_all_digit r2)
    (by decide) (by decide) h1
  have hr : r1 = r2 := natStr_inj r1 r2 (str_ext _ _ h2.1)
  have h3 := h2.2.2
  simp only [List.cons.injEq, true_and] at h3
  have h4 := digit_split _ _ _ _ _ _ (natStr_all_digit x1) (natStr_all_digit x2)
    (by decide) (by decide) h3
  have hx : x1 = x2 := natStr_inj x1 x2 (str_ext _ _ h4.1)
  have h5 := h4.2.2
  simp only [List.cons.injEq, true_and] at h5
  have hy : y1 = y2 := natStr_inj y1 y2 (str_ext _ _ h5)
  exact ⟨hr, hx, hy⟩

theorem autoLog_inj (i j : Nat) (h : autoLog i = autoLog j) : i = j := by
  simp only [autoLog, LogEntry.mk.injEq, true_and] at h
  exact autoDetails_inj i j h

theorem autoLog_ne (i j : Nat) (h : i ≠ j) : autoLog i ≠ autoLog j := by
  intro he
  exact h (autoLog_inj i j he)

theorem rotLog_ne_of_room_ne (a b c R x y : Nat) (h : a ≠ R) :
    rotLog a b c ≠ rotLog R x y := by
  intro he
  simp only [rotLog, LogEntry.mk.injEq, true_and] at he
  exact h (rotDetails_inj a b c R x y he).1

/-! Generic list lemmas used by the frame arguments. -/

theorem filter_of_map {α : Type} (G : α → α) (p : α → Bool) :
    ∀ l : List α, (l.map G).filter p = (l.filter (fun a => p (G a))).map G := by
  intro l
  induction l with
  | nil => rfl
  | cons a t ih =>
    simp only [List.map_cons, List.filter_cons]
    cases hp : p (G a) <;> simp [hp, ih]

theorem map_congr_id {α : Type} : ∀ (l : List α) (G : α → α),
    (∀ a ∈ l, G a = a) → l.map G = l := by
  intro l
  induction l with
  | nil => intro G _; rfl
  | cons a t ih =>
    intro G h
    simp only [List.map_cons]
    rw [h a (by simp), ih G (fun x hx => h x (by simp [hx]))]

theorem find?_map_pres : ∀ (l : List Device) (G : Device → Device) (i : Nat),
    (∀ e, (G e).id = e.id) →
    (l.map G).find? (fun d => d.id == i) = (l.find? (fun d => d.id == i)).map G := by
  intro l G i hid
  induction l with
  | nil => rfl
  | cons a t ih =>
    cases hpa : (a.id == i) with
    | true =>
      have : ((G a).id == i) = true := by rw [hid a]; exact hpa
      simp [List.find?_cons, hpa, this]
    | false =>
      have : ((G a).id == i) = false := by rw [hid a]; exact hpa
      simp [List.find?_cons, hpa, this, ih]

theorem find?_self_of_nodup : ∀ (l : List Device),
    (l.map (fun d => d.id)).Nodup → ∀ d ∈ l, l.find? (fun e => e.id == d.id) = some d := by
  intro l
  induction l with
  | nil => intro _ d hd; cases hd
  | cons a t ih =>
    intro hnd d hd
    cases hcond : (a.id == d.id) with
    | true =>
      have haid : a.id = d.id := by simpa using hcond
      have had : a = d :=
        List.inj_on_of_nodup_map hnd (by simp) (by simpa using hd) haid
      simp [List.find?_cons, hcond, had]
    | false =>
      have hdt : d ∈ t := by
        rcases List.mem_cons.mp hd with h1 | h1
        · rw [h1] at hcond; simp at hcond
        · exact h1
      have hndt : (t.map (fun d => d.id)).Nodup := by
        simpa using (List.nodup_cons.mp (by simpa using hnd)).2
      simp [List.find?_cons, hcond, ih hndt d hdt]

theorem any_filter_of_find?_some (rooms : List Room) (P : Room → Bool) (rid : Nat)
    (r : Room) (hnd : (rooms.map (fun x => x.id)).Nodup)
    (hfind : rooms.find? (fun x => x.id == rid) = some r) :
    (rooms.filter P).any (fun x => x.id == rid) = P r := by
  have hrmem : r ∈ rooms := List.mem_of_find?_eq_some hfind
  have hrid : r.id = rid := by simpa using List.find?_some hfind
  cases hP : P r with
  | true =>
    apply List.any_eq_true.mpr
    exact ⟨r, List.mem_filter.mpr ⟨hrmem, hP⟩, by simp [hrid]⟩
  | false =>
    by_contra hc
    have hany : (rooms.filter P).any (fun x => x.id == rid) = true := by
      cases hv : (rooms.filter P).any (fun x => x.id == rid) with
      | true => rfl
      | false => rw [hv] at hc; simp at hc
    rcases List.any_eq_true.mp hany with ⟨x, hxmem, hxid⟩
    have hxrooms : x ∈ rooms := (List.mem_filter.mp hxmem).1
    have hxP : P x = true := (List.mem_filter.mp hxmem).2
    have hxr : x = r :=
      List.inj_on_of_nodup_map hnd hxrooms hrmem (by simp at hxid; rw [hxid, hrid])
    rw [hxr] at hxP
    simp [hP] at hxP

theorem any_filter_of_find?_none (rooms : List Room) (P : Room → Bool) (rid : Nat)
    (hfind : rooms.find? (fun x => x.id == rid) = none) :
    (rooms.filter P).any (fun x => x.id == rid) = false := by
  have hall := List.find?_eq_none.mp hfind
  cases hv : (rooms.filter P).any (fun x => x.id == rid) with
  | false => rfl
  | true =>
    rcases List.any_eq_true.mp hv with ⟨x, hxmem, hxid⟩
    have := hall x (List.mem_filter.mp hxmem).1
    rw [hxid] at this
    cases this rfl

theorem filter_congr_mem {α : Type} (p q : α → Bool) : ∀ l : List α,
    (∀ a ∈ l, p a = q a) → l.filter p = l.filter q := by
  intro l
  induction l with
  | nil => intro _; rfl
  | cons a t ih =>
    intro h
    simp only [List.filter_cons]
    rw [h a (by simp), ih (fun x hx => h x (by simp [hx]))]

theorem filter_nil_of_all {α : Type} (p : α → Bool) : ∀ l : List α,
    (∀ a ∈ l, p a = false) → l.filter p = [] := by
  intro l
  induction l with
  | nil => intro _; rfl
  | cons a t ih =>
    intro h
    simp only [List.filter_cons]
    rw [h a (by simp)]
    simp only [Bool.false_eq_true, if_false]
    exact ih (fun x hx => h x (by simp [hx]))

/-! Specification lemmas for the Boolean row tests. -/

theorem candP_spec (rid : Nat) (d : Device) (hc : candP rid d = true) :
    d.room_id = rid ∧ d.device_type = "ac" ∧ d.is_on = false ∧ d.status = "active" := by
  simp only [candP, Bool.and_eq_true, beq_iff_eq] at hc
  exact ⟨hc.1.1.1, hc.1.1.2, by simpa using hc.1.2, hc.2⟩

theorem overdueP_spec (now : Int) (d : Device) (hc : overdueP now d = true) :
    d.device_type = "ac" ∧ d.is_on = true ∧ d.last_switched < now - eightHours := by
  simp only [overdueP, Bool.and_eq_true, beq_iff_eq, decide_eq_true_eq] at hc
  exact ⟨hc.1.1, hc.1.2, hc.2⟩

/-! Shape lemmas: every UPDATE issued by the rules only changes the
`is_on` / `last_switched` columns. -/

theorem shapeG_updOff (now : Int) (i : Nat) : ShapeG (updOff now i) := by
  intro e
  unfold updOff
  by_cases h : (e.id == i) = true <;> simp [h]

theorem shapeG_updOn (now : Int) (i : Nat) : ShapeG (updOn now i) := by
  intro e
  unfold updOn
  by_cases h : (e.id == i) = true <;> simp [h]

theorem shapeG_comp (G K : Device → Device) (hG : ShapeG G) (hK : ShapeG K) :
    ShapeG (fun e => K (G e)) := by
  intro e
  rcases hG e with ⟨h1, h2, h3, h4, h5⟩
  rcases hK (G e) with ⟨k1, k2, k3, k4, k5⟩
  exact ⟨by rw [k1, h1], by rw [k2, h2], by rw [k3, h3], by rw [k4, h4], by rw [k5, h5]⟩

theorem updOff_skip (now : Int) (i : Nat) (e : Device) (h : e.id ≠ i) :
    updOff now i e = e := by
  unfold updOff
  simp [beq_false_of_ne h]

theorem updOn_skip (now : Int) (i : Nat) (e : Device) (h : e.id ≠ i) :
    updOn now i e = e := by
  unfold updOn
  simp [beq_false_of_ne h]

theorem updOff_hit (now : Int) (e : Device) :
    updOff now e.id e = { e with is_on := false, last_switched := now } := by
  unfold updOff
  simp

theorem updOn_hit (now : Int) (e : Device) :
    updOn now e.id e = { e with is_on := true, last_switched := now } := by
  unfold updOn
  simp

/-! Transport of the replacement pool along a frame: when every device of
room `R` is mapped by `H` and all other rooms keep their identity columns,
the candidate pool of room `R` is determined by the base state and `H`. -/

theorem filter_cand_of_frame (base : List Device) (R : Nat) (G H : Device → Device)
    (hShape : ShapeG G)
    (hfix : ∀ e ∈ base, e.room_id = R → G e = H e) :
    (base.map G).filter (candP R) = ((base.filter (fun e => candP R (H e))).filter
      (fun e => e.room_id == R)).map G := by
  rw [filter_of_map]
  have h1 : base.filter (fun a => candP R (G a)) =
      (base.filter (fun e => candP R (H e))).filter (fun e => e.room_id == R) := by
    rw [List.filter_filter]
    apply filter_congr_mem
    intro a ha
    by_cases hroom : a.room_id = R
    · rw [hfix a ha hroom]
      have : (a.room_id == R) = true := by simpa using hroom
      simp [this]
    · have hfalse : (a.room_id == R) = false := by simpa using hroom
      have hG : ((G a).room_id == R) = false := by rw [(hShape a).2.1]; exact hfalse
      simp only [candP]
      rw [hG, hfalse]
      simp
  rw [h1]

theorem filter_cand_id_frame (base : List Device) (R : Nat) (G : Device → Device)
    (hShape : ShapeG G)
    (hfix : ∀ e ∈ base, e.room_id = R → G e = e) :
    (base.map G).filter (candP R) = base.filter (candP R) := by
  have h := filter_cand_of_frame base R G id hShape hfix
  simp only [id] at h
  rw [h, List.filter_filter]
  have hq : ∀ a ∈ base, (decide (a.room_id = R) && candP R a) = candP R a := by
    intro a _
    cases hc : candP R a with
    | false => simp
    | true =>
      have := (candP_spec R a hc).1
      simp [this]
  rw [show (fun e => e.room_id == R && candP R e) = (fun e => decide (e.room_id = R) && candP R e) from rfl]
  rw [filter_congr_mem _ _ base hq]
  apply map_congr_id
  intro a ha
  exact hfix a (List.mem_filter.mp ha).1 (candP_spec R a (List.mem_filter.mp ha).2).1

theorem filter_cand_empty_frame (base : List Device) (R : Nat) (G H : Device → Device)
    (hShape : ShapeG G)
    (hfix : ∀ e ∈ base, e.room_id = R → G e = H e)
    (hemp : ∀ e ∈ base, e.room_id = R → candP R (H e) = false) :
    (base.map G).filter (candP R) = [] := by
  rw [filter_of_map]
  have h0 : base.filter (fun a => candP R (G a)) = [] := by
    apply filter_nil_of_all
    intro a ha
    by_cases hroom : a.room_id = R
    · rw [hfix a ha hroom]
      exact hemp a ha hroom
    · have hfalse : (a.room_id == R) = false := by simpa using hroom
      have hG : ((G a).room_id == R) = false := by rw [(hShape a).2.1]; exact hfalse
      simp only [candP]
      rw [hG]
      simp
  rw [h0]
  rfl

theorem selRep_aux_mem : ∀ (l : List Device) (acc : Option Device) (r : Device),
    l.foldl (fun acc d =>
      match acc with
      | none => some d
      | some b => if d.last_switched < b.last_switched then some d else some b) acc =
        some r →
    acc = some r ∨ r ∈ l := by
  intro l
  induction l with
  | nil =>
    intro acc r h
    exact Or.inl h
  | cons a t ih =>
    intro acc r h
    rw [List.foldl_cons] at h
    rcases ih _ r h with h1 | h1
    · cases acc with
      | none =>
        have h2 : some a = some r := h1
        have ha : a = r := Option.some.inj h2
        subst ha
        exact Or.inr (List.mem_cons_self a t)
      | some b =>
        by_cases hlt : a.last_switched < b.last_switched
        · have h2 : (if a.last_switched < b.last_switched then some a else some b) = some r := h1
          rw [if_pos hlt] at h2
          have ha : a = r := Option.some.inj h2
          subst ha
          exact Or.inr (List.mem_cons_self a t)
        · have h2 : (if a.last_switched < b.last_switched then some a else some b) = some r := h1
          rw [if_neg hlt] at h2
          exact Or.inl h2
    · exact Or.inr (List.mem_cons_of_mem a h1)

theorem selRep_aux_none : ∀ (l : List Device) (acc : Option Device),
    l.foldl (fun acc d =>
      match acc with
      | none => some d
      | some b => if d.last_switched < b.last_switched then some d else some b) acc =
        none →
    acc = none ∧ l = [] := by
  intro l
  induction l with
  | nil =>
    intro acc h
    exact ⟨h, rfl⟩
  | cons a t ih =>
    intro acc h
    rw [List.foldl_cons] at h
    rcases ih _ h with ⟨hstep, _⟩
    cases acc with
    | none =>
      have h2 : some a = none := hstep
      simp at h2
    | some b =>
      by_cases hlt : a.last_switched < b.last_switched
      · have h2 : (if a.last_switched < b.last_switched then some a else some b) = none := hstep
        rw [if_pos hlt] at h2
        simp at h2
      · have h2 : (if a.last_switched < b.last_switched then some a else some b) = none := hstep
        rw [if_neg hlt] at h2
        simp at h2

theorem selectReplacement_mem (devs : List Device) (rid : Nat) (r : Device)
    (h : selectReplacement devs rid = some r) : r ∈ devs ∧ candP rid r = true := by
  unfold selectReplacement at h
  rcases selRep_aux_mem _ _ _ h with h1 | h1
  · simp at h1
  · exact ⟨(List.mem_filter.mp h1).1, (List.mem_filter.mp h1).2⟩

theorem selectReplacement_some_of_exists (devs : List Device) (rid : Nat)
    (h : ∃ e ∈ devs, candP rid e = true) : ∃ r, selectReplacement devs rid = some r := by
  cases hsel : selectReplacement devs rid with
  | some r => exact ⟨r, rfl⟩
  | none =>
    unfold selectReplacement at hsel
    rcases selRep_aux_none _ _ hsel with ⟨_, hnil⟩
    rcases h with ⟨e, hmem, hc⟩
    have hin : e ∈ devs.filter (candP rid) := List.mem_filter.mpr ⟨hmem, hc⟩
    rw [hnil] at hin
    cases hin

theorem selRep_id_frame (base : List Device) (R : Nat) (G : Device → Device)
    (hShape : ShapeG G) (hfix : ∀ e ∈ base, e.room_id = R → G e = e) :
    selectReplacement (base.map G) R = selectReplacement base R := by
  unfold selectReplacement
  rw [filter_cand_id_frame base R G hShape hfix]

/-- Frame lemma for the rotation loop: running the loop over any snapshot
list of base rows, starting in a state whose devices are a shape-preserving
image of the base state agreeing with `H` on room `R` (and where any
snapshot element lying in room `R` finds an empty replacement pool), keeps
the rows of room `R` at `H`, only appends rotation log rows of other rooms,
and never touches rooms or alerts. -/
theorem rot_fold_frame (s : DBState) (R : Nat) (H : Device → Device) (now : Int)
    (hnd : (s.devices.map (fun d => d.id)).Nodup)
    (hH : ShapeG H) :
    ∀ (L : List Device) (st : DBState) (G : Device → Device),
      (∀ x ∈ L, x ∈ s.devices) →
      (∀ x ∈ L, x.room_id = R → ∀ e ∈ s.devices, e.room_id = R → candP R (H e) = false) →
      st.devices = s.devices.map G →
      ShapeG G →
      (∀ e ∈ s.devices, e.room_id = R → G e = H e) →
      ∃ G2 E,
        (L.foldl (rotateOne now) st).devices = s.devices.map G2 ∧
        ShapeG G2 ∧
        (∀ e ∈ s.devices, e.room_id = R → G2 e = H e) ∧
        (L.foldl (rotateOne now) st).logs = st.logs ++ E ∧
        (∀ en ∈ E, ∃ a b c, en = rotLog a b c ∧ a ≠ R) ∧
        (L.foldl (rotateOne now) st).rooms = st.rooms ∧
        (L.foldl (rotateOne now) st).alerts = st.alerts := by
  intro L
  induction L with
  | nil =>
    intro st G _ _ hdev hG hfix
    exact ⟨G, [], hdev, hG, hfix, by simp, by simp, rfl, rfl⟩
  | cons x rest ih =>
    intro st G hmem hpool hdev hG hfix
    rw [List.foldl_cons]
    by_cases hxR : x.room_id = R
    · have hsel : selectReplacement st.devices x.room_id = none := by
        unfold selectReplacement
        rw [hxR, hdev, filter_cand_empty_frame s.devices R G H hG hfix
          (hpool x (by simp) hxR)]
        rfl
      have hrot : rotateOne now st x = st := by
        unfold rotateOne
        rw [hsel]
      rw [hrot]
      exact ih st G (fun z hz => hmem z (by simp [hz]))
        (fun z hz => hpool z (by simp [hz])) hdev hG hfix
    · cases hsel : selectReplacement st.devices x.room_id with
      | none =>
        have hrot : rotateOne now st x = st := by
          unfold rotateOne
          rw [hsel]
        rw [hrot]
        exact ih st G (fun z hz => hmem z (by simp [hz]))
          (fun z hz => hpool z (by simp [hz])) hdev hG hfix
      | some repl =>
        have hreplfacts := selectReplacement_mem st.devices x.room_id repl hsel
        have hreplst : repl ∈ st.devices := hreplfacts.1
        have hreplc : candP x.room_id repl = true := hreplfacts.2
        have hreplst2 : repl ∈ s.devices.map G := by rw [← hdev]; exact hreplst
        obtain ⟨e1, he1mem, he1eq⟩ := List.mem_map.mp hreplst2
        have he1id : repl.id = e1.id := by rw [← he1eq]; exact (hG e1).1
        have he1room : e1.room_id = x.room_id := by
          have hrr : repl.room_id = x.room_id := (candP_spec _ _ hreplc).1
          have h2 : (G e1).room_id = e1.room_id := (hG e1).2.1
          rw [he1eq] at h2
          rw [← h2]
          exact hrr
        have he1R : e1.room_id ≠ R := by rw [he1room]; exact hxR
        have hstep : rotateOne now st x =
            { st with
                devices := (st.devices.map (updOff now x.id)).map (updOn now repl.id),
                logs := st.logs ++ [rotLog x.room_id x.id repl.id] } := by
          unfold rotateOne
          rw [hsel]
        have hdev2 : (rotateOne now st x).devices =
            s.devices.map (fun e => updOn now repl.id (updOff now x.id (G e))) := by
          rw [hstep]
          show (st.devices.map (updOff now x.id)).map (updOn now repl.id) = _
          rw [hdev, List.map_map, List.map_map]
          rfl
        have hG2shape : ShapeG (fun e => updOn now repl.id (updOff now x.id (G e))) := by
          have hin := shapeG_comp G (updOff now x.id) hG (shapeG_updOff now x.id)
          exact shapeG_comp _ (updOn now repl.id) hin (shapeG_updOn now repl.id)
        have hfix2 : ∀ e ∈ s.devices, e.room_id = R →
            updOn now repl.id (updOff now x.id (G e)) = H e := by
          intro e he heR
          have hexne : e ≠ x := fun h => hxR (by rw [← h]; exact heR)
          have hidne : e.id ≠ x.id :=
            fun h => hexne (List.inj_on_of_nodup_map hnd he (hmem x (by simp)) h)
          have he1ne : e ≠ e1 := fun h => he1R (by rw [← h]; exact heR)
          have hidne2 : e.id ≠ e1.id :=
            fun h => he1ne (List.inj_on_of_nodup_map hnd he he1mem h)
          rw [hfix e he heR]
          rw [updOff_skip now x.id (H e) (by rw [(hH e).1]; exact hidne)]
          rw [updOn_skip now repl.id (H e) (by rw [(hH e).1, he1id]; exact hidne2)]
        rcases ih (rotateOne now st x) (fun e => updOn now repl.id (updOff now x.id (G e)))
          (fun z hz => hmem z (by simp [hz])) (fun z hz => hpool z (by simp [hz]))
          hdev2 hG2shape hfix2 with ⟨G3, E3, hd3, hs3, hf3, hl3, hE3, hr3, ha3⟩
        refine ⟨G3, rotLog x.room_id x.id repl.id :: E3, hd3, hs3, hf3, ?_, ?_, ?_, ?_⟩
        · rw [hl3, hstep]
          show (st.logs ++ [rotLog x.room_id x.id repl.id]) ++ E3 = _
          simp [List.append_assoc]
        · intro en hen
          rcases List.mem_cons.mp hen with h | h
          · exact ⟨x.room_id, x.id, repl.id, h, hxR⟩
          · exact hE3 en h
        · rw [hr3, hstep]
        · rw [ha3, hstep]

/-- Claim C1: the AC rotation rule has no critical-room guard.  In `sCrit`
the only room is critical, yet one rotation pass switches its overdue AC off
and its spare on, changing `is_on` for two devices of a critical room.  The
empty-room and shutdown rules do filter on `is_critical = FALSE`; the
rotation query (control.py lines 91-95) does not. -/
theorem C1_rotation_in_critical_room :
    sCrit.rooms.map (fun r => r.is_critical) = [true] ∧
    sCrit.devices.map (fun d => d.is_on) = [true, false] ∧
    (ac_rotation_system true 30000 sCrit).devices.map (fun d => d.is_on) = [false, true] ∧
    (ac_rotation_system true 30000 sCrit).logs = [rotLog 1 1 2] := by decide

/-- Claim C3 (amended): an overdue AC with no eligible replacement in its
room is left completely untouched by one rotation pass, and the pass writes
no alert at all: the `system_alerts` table is unchanged (the source never
calls `add_system_alert` from the rotation rule). -/
theorem C3_rotation_no_spare (s : DBState) (now : Int) (d : Device)
    (hnd : (s.devices.map (fun x => x.id)).Nodup)
    (hd : d ∈ s.devices)
    (hover : overdueP now d = true)
    (hnorepl : ∀ e ∈ s.devices, candP d.room_id e = false) :
    devById (ac_rotation_system true now s) d.id = some d ∧
    (ac_rotation_system true now s).alerts = s.alerts := by
  have hpass : ac_rotation_system true now s =
      (s.devices.filter (overdueP now)).foldl (rotateOne now) s := by
    unfold ac_rotation_system
    rfl
  have hfold := rot_fold_frame s d.room_id id now hnd
    (fun e => ⟨rfl, rfl, rfl, rfl, rfl⟩)
    (s.devices.filter (overdueP now)) s id
    (fun x hx => (List.mem_filter.mp hx).1)
    (fun x _ _ e he _ => hnorepl e he)
    (List.map_id s.devices).symm
    (fun e => ⟨rfl, rfl, rfl, rfl, rfl⟩)
    (fun e _ _ => rfl)
  rcases hfold with ⟨G2, E, hdev2, hG2, hfix2, _, _, _, halerts⟩
  constructor
  · rw [hpass]
    unfold devById
    rw [hdev2, find?_map_pres s.devices G2 d.id (fun e => (hG2 e).1),
      find?_self_of_nodup s.devices hnd d hd]
    show some (G2 d) = some d
    rw [hfix2 d hd rfl]
    rfl
  · rw [hpass, halerts]

/-- Claim C3, counterexample to the claim as stated: in `sNoSpare` the AC is
overdue and has zero eligible replacements; after one pass the state is
unchanged and the alert table is empty, so no warning alert referencing the
device exists. -/
theorem C3_counterexample :
    overdueP 30000 acNoSpare = true ∧
    sNoSpare.devices.map (candP acNoSpare.room_id) = [false, false] ∧
    ac_rotation_system true 30000 sNoSpare = sNoSpare ∧
    (ac_rotation_system true 30000 sNoSpare).alerts = [] := by decide

/-- Witness for `C3_rotation_no_spare` at the concrete state `sNoSpare`. -/
theorem C3_rotation_no_spare_witness :
    devById (ac_rotation_system true 30000 sNoSpare) acNoSpare.id = some acNoSpare ∧
    (ac_rotation_system true 30000 sNoSpare).alerts = sNoSpare.alerts :=
  C3_rotation_no_spare sNoSpare 30000 acNoSpare (by decide) (by decide) (by decide)
    (by decide)

theorem rotateOne_eq_of_some (now : Int) (st : DBState) (ac repl : Device)
    (h : selectReplacement st.devices ac.room_id = some repl) :
    rotateOne now st ac =
      { st with
          devices := (st.devices.map (updOff now ac.id)).map (updOn now repl.id),
          logs := st.logs ++ [rotLog ac.room_id ac.id repl.id] } := by
  unfold rotateOne
  rw [h]

/-- Claim C2 (amended): for an overdue AC that is the only overdue AC of its
room in the pass, with at least one eligible replacement, one rotation pass
switches the overdue AC off and exactly one previously-off AC of the room
on, stamps both rows with the same instant `now`, leaves every other row of
the room untouched, and appends exactly one "AC Rotation" log row naming the
room and the two device identifiers (every other appended row belongs to a
different room). -/
theorem C2_rotation_single_overdue (s : DBState) (now : Int) (d : Device)
    (hnd : (s.devices.map (fun x => x.id)).Nodup)
    (hd : d ∈ s.devices)
    (hover : overdueP now d = true)
    (huniq : ∀ e ∈ s.devices, overdueP now e = true → e.room_id = d.room_id → e = d)
    (hex : ∃ e ∈ s.devices, candP d.room_id e = true) :
    ∃ repl E1 E2,
      repl ∈ s.devices ∧
      candP d.room_id repl = true ∧
      devById (ac_rotation_system true now s) d.id =
        some { d with is_on := false, last_switched := now } ∧
      devById (ac_rotation_system true now s) repl.id =
        some { repl with is_on := true, last_switched := now } ∧
      (∀ e ∈ s.devices, e.room_id = d.room_id → e.id ≠ d.id → e.id ≠ repl.id →
        devById (ac_rotation_system true now s) e.id = some e) ∧
      (ac_rotation_system true now s).logs =
        s.logs ++ E1 ++ rotLog d.room_id d.id repl.id :: E2 ∧
      (∀ en ∈ E1, ∀ x y, en ≠ rotLog d.room_id x y) ∧
      (∀ en ∈ E2, ∀ x y, en ≠ rotLog d.room_id x y) := by
  have hsdn : s.devices.Nodup := List.Nodup.of_map _ hnd
  have hdO : d ∈ s.devices.filter (overdueP now) := List.mem_filter.mpr ⟨hd, hover⟩
  obtain ⟨L1, L2, hsplit⟩ := List.append_of_mem hdO
  have hOnodup : (s.devices.filter (overdueP now)).Nodup := List.Nodup.filter _ hsdn
  rw [hsplit] at hOnodup
  have hmid := List.nodup_middle.mp hOnodup
  have hdnotin : d ∉ L1 ++ L2 := (List.nodup_cons.mp hmid).1
  have hL1O : ∀ x ∈ L1, x ∈ s.devices.filter (overdueP now) := by
    intro x hx
    rw [hsplit]
    exact List.mem_append_left _ hx
  have hL2O : ∀ x ∈ L2, x ∈ s.devices.filter (overdueP now) := by
    intro x hx
    rw [hsplit]
    exact List.mem_append_right _ (List.mem_cons_of_mem d hx)
  have hroomne1 : ∀ x ∈ L1, x.room_id ≠ d.room_id := by
    intro x hx hroom
    have hxO := hL1O x hx
    have hxd : x = d := huniq x (List.mem_filter.mp hxO).1 (List.mem_filter.mp hxO).2 hroom
    exact hdnotin (List.mem_append_left _ (hxd ▸ hx))
  have hroomne2 : ∀ x ∈ L2, x.room_id ≠ d.room_id := by
    intro x hx hroom
    have hxO := hL2O x hx
    have hxd : x = d := huniq x (List.mem_filter.mp hxO).1 (List.mem_filter.mp hxO).2 hroom
    exact hdnotin (List.mem_append_right _ (hxd ▸ hx))
  have hidShape : ShapeG (fun e : Device => e) := fun e => ⟨rfl, rfl, rfl, rfl, rfl⟩
  have hph1 := rot_fold_frame s d.room_id (fun e => e) now hnd hidShape L1 s (fun e => e)
    (fun x hx => (List.mem_filter.mp (hL1O x hx)).1)
    (fun x hx hxR => absurd hxR (hroomne1 x hx))
    (by rw [List.map_id'])
    hidShape
    (fun e _ _ => rfl)
  rcases hph1 with ⟨G1, E1, hdev1, hG1, hfix1, hlog1, hE1, _, _⟩
  obtain ⟨repl, hselR⟩ := selectReplacement_some_of_exists s.devices d.room_id hex
  have hreplfacts := selectReplacement_mem s.devices d.room_id repl hselR
  have hreplmem : repl ∈ s.devices := hreplfacts.1
  have hreplc : candP d.room_id repl = true := hreplfacts.2
  have hreplroom : repl.room_id = d.room_id := (candP_spec _ _ hreplc).1
  have hdon : d.is_on = true := (overdueP_spec now d hover).2.1
  have hreploff : repl.is_on = false := (candP_spec _ _ hreplc).2.2.1
  have hdne : d ≠ repl := by
    intro h
    rw [h, hreploff] at hdon
    cases hdon
  have hne_ids : d.id ≠ repl.id :=
    fun h => hdne (List.inj_on_of_nodup_map hnd hd hreplmem h)
  have hselSt1 : selectReplacement (L1.foldl (rotateOne now) s).devices d.room_id =
      some repl := by
    rw [hdev1, selRep_id_frame s.devices d.room_id G1 hG1 hfix1]
    exact hselR
  have hstep : rotateOne now (L1.foldl (rotateOne now) s) d =
      { (L1.foldl (rotateOne now) s) with
          devices := ((L1.foldl (rotateOne now) s).devices.map (updOff now d.id)).map
            (updOn now repl.id),
          logs := (L1.foldl (rotateOne now) s).logs ++
            [rotLog d.room_id d.id repl.id] } :=
    rotateOne_eq_of_some now (L1.foldl (rotateOne now) s) d repl hselSt1
  have hdev2 : (rotateOne now (L1.foldl (rotateOne now) s) d).devices =
      s.devices.map (fun e => updOn now repl.id (updOff now d.id (G1 e))) := by
    rw [hstep]
    show ((L1.foldl (rotateOne now) s).devices.map (updOff now d.id)).map
      (updOn now repl.id) = _
    rw [hdev1, List.map_map, List.map_map]
    rfl
  have hG2 : ShapeG (fun e => updOn now repl.id (updOff now d.id (G1 e))) := by
    have hin := shapeG_comp G1 (updOff now d.id) hG1 (shapeG_updOff now d.id)
    exact shapeG_comp _ (updOn now repl.id) hin (shapeG_updOn now repl.id)
  have hH2 : ShapeG (fun e => updOn now repl.id (updOff now d.id e)) :=
    shapeG_comp (updOff now d.id) (updOn now repl.id)
      (shapeG_updOff now d.id) (shapeG_updOn now repl.id)
  have hfix2 : ∀ e ∈ s.devices, e.room_id = d.room_id →
      updOn now repl.id (updOff now d.id (G1 e)) =
      updOn now repl.id (updOff now d.id e) := by
    intro e he hr
    rw [hfix1 e he hr]
  have hph3 := rot_fold_frame s d.room_id
    (fun e => updOn now repl.id (updOff now d.id e)) now hnd hH2 L2
    (rotateOne now (L1.foldl (rotateOne now) s) d)
    (fun e => updOn now repl.id (updOff now d.id (G1 e)))
    (fun x hx => (List.mem_filter.mp (hL2O x hx)).1)
    (fun x hx hxR => absurd hxR (hroomne2 x hx))
    hdev2 hG2 hfix2
  rcases hph3 with ⟨G3, E3, hdev3, hG3, hfix3, hlog3, hE3, _, _⟩
  have hpassEq : ac_rotation_system true now s =
      L2.foldl (rotateOne now) (rotateOne now (L1.foldl (rotateOne now) s) d) := by
    show (s.devices.filter (overdueP now)).foldl (rotateOne now) s = _
    rw [hsplit, List.foldl_append, List.foldl_cons]
  have hdevF : (ac_rotation_system true now s).devices = s.devices.map G3 := by
    rw [hpassEq]
    exact hdev3
  refine ⟨repl, E1, E3, hreplmem, hreplc, ?_, ?_, ?_, ?_, ?_, ?_⟩
  · unfold devById
    rw [hdevF, find?_map_pres s.devices G3 d.id (fun e => (hG3 e).1),
      find?_self_of_nodup s.devices hnd d hd]
    show some (G3 d) = _
    rw [hfix3 d hd rfl]
    show some (updOn now repl.id (updOff now d.id d)) = _
    rw [updOff_hit now d]
    rw [updOn_skip now repl.id { d with is_on := false, last_switched := now } hne_ids]
  · unfold devById
    rw [hdevF, find?_map_pres s.devices G3 repl.id (fun e => (hG3 e).1),
      find?_self_of_nodup s.devices hnd repl hreplmem]
    show some (G3 repl) = _
    rw [hfix3 repl hreplmem hreplroom]
    show some (updOn now repl.id (updOff now d.id repl)) = _
    rw [updOff_skip now d.id repl (fun h => hne_ids h.symm)]
    rw [updOn_hit now repl]
  · intro e he hroom hne1 hne2
    unfold devById
    rw [hdevF, find?_map_pres s.devices G3 e.id (fun x => (hG3 x).1),
      find?_self_of_nodup s.devices hnd e he]
    show some (G3 e) = _
    rw [hfix3 e he hroom]
    show some (updOn now repl.id (updOff now d.id e)) = _
    rw [updOff_skip now d.id e hne1, updOn_skip now repl.id e hne2]
  · rw [hpassEq, hlog3, hstep]
    show ((L1.foldl (rotateOne now) s).logs ++ [rotLog d.room_id d.id repl.id]) ++ E3 = _
    rw [hlog1]
    simp [List.append_assoc]
  · intro en hen x y
    rcases hE1 en hen with ⟨a, b, c, heq, hne⟩
    rw [heq]
    exact rotLog_ne_of_room_ne a b c d.room_id x y hne
  · intro en hen x y
    rcases hE3 en hen with ⟨a, b, c, heq, hne⟩
    rw [heq]
    exact rotLog_ne_of_room_ne a b c d.room_id x y hne

/-- Claim C2, counterexample to the claim as stated: in `sTwoOverdue` both
AC 1 and AC 2 are overdue in room 1 and each has an eligible replacement
(AC 3 and AC 4 are idle candidates), yet after one pass two previously-off
ACs of the room are on and two "AC Rotation" rows exist for room 1 — not
exactly one of each, as the per-AC claim demands. -/
theorem C2_counterexample :
    overdueP 30000 (⟨1, 1, "AC-1", "ac", true, 0, "active"⟩ : Device) = true ∧
    sTwoOverdue.devices.map (fun e => candP 1 e) = [false, false, true, true] ∧
    sTwoOverdue.devices.map (fun d => d.is_on) = [true, true, false, false] ∧
    (ac_rotation_system true 30000 sTwoOverdue).devices.map (fun d => d.is_on) =
      [false, false, true, true] ∧
    (ac_rotation_system true 30000 sTwoOverdue).logs = [rotLog 1 1 3, rotLog 1 2 4] := by
  decide

/-- Witness for `C2_rotation_single_overdue` at the concrete state `sRotW`,
rotating AC 1 of room 1 while room 2 rotates independently. -/
theorem C2_rotation_single_overdue_witness :
    ∃ repl E1 E2,
      repl ∈ sRotW.devices ∧
      candP acRotW.room_id repl = true ∧
      devById (ac_rotation_system true 30000 sRotW) acRotW.id =
        some { acRotW with is_on := false, last_switched := 30000 } ∧
      devById (ac_rotation_system true 30000 sRotW) repl.id =
        some { repl with is_on := true, last_switched := 30000 } ∧
      (∀ e ∈ sRotW.devices, e.room_id = acRotW.room_id → e.id ≠ acRotW.id →
        e.id ≠ repl.id →
        devById (ac_rotation_system true 30000 sRotW) e.id = some e) ∧
      (ac_rotation_system true 30000 sRotW).logs =
        sRotW.logs ++ E1 ++ rotLog acRotW.room_id acRotW.id repl.id :: E2 ∧
      (∀ en ∈ E1, ∀ x y, en ≠ rotLog acRotW.room_id x y) ∧
      (∀ en ∈ E2, ∀ x y, en ≠ rotLog acRotW.room_id x y) :=
  C2_rotation_single_overdue sRotW 30000 acRotW (by decide) (by decide) (by decide)
    (by decide) (by decide)

/-- Claim C4: the toggle command fails without any state mutation both when
the device does not resolve and when its room is critical and no force flag
is passed, returning the exact reason strings of the source. -/
theorem C4_toggle_failures (s : DBState) (i u : Nat) (force : Bool) (now : Int) :
    (s.devices.find? (fun d => d.id == i) = none →
      toggle_device s i u force now = ((false, "Device not found"), s)) ∧
    (∀ room, get_room_by_device s i = some room → room.is_critical = true →
      force = false →
      toggle_device s i u force now =
        ((false, "Critical room - Admin permission required"), s)) := by
  constructor
  · intro hnone
    have hroom : get_room_by_device s i = none := by
      unfold get_room_by_device
      rw [hnone]
    unfold toggle_device
    rw [hroom]
  · intro room hroom hcrit hforce
    unfold toggle_device
    rw [hroom]
    simp [hcrit, hforce]

/-- Witness for `C4_toggle_failures`: device 99 is absent from `sTog`, and
device 7 sits in the critical room 1. -/
theorem C4_toggle_failures_witness :
    toggle_device sTog 99 1 false 0 = ((false, "Device not found"), sTog) ∧
    toggle_device sTog 7 1 false 0 =
      ((false, "Critical room - Admin permission required"), sTog) :=
  ⟨(C4_toggle_failures sTog 99 1 false 0).1 (by decide),
   (C4_toggle_failures sTog 7 1 false 0).2 ⟨1, 101, 0, true, false, 1, 1⟩
     (by decide) (by decide) rfl⟩

/-- Claim C5 (code bug): the room query of the empty-room rule filters only
on `occupancy = 0 AND is_critical = FALSE`; the computed 15-minute threshold
(control.py line 50) is never used.  Hence for every instant `now` — in
particular at the very moment the room becomes empty, long before 15 minutes
have elapsed — the pass already switches the running fan of `sEmptyNow` off
and logs an "Auto OFF" row. -/
theorem C5_threshold_unused : ∀ now : Int,
    (auto_control_empty_rooms true now sEmptyNow).devices.map (fun d => d.is_on) =
      [false] ∧
    (auto_control_empty_rooms true now sEmptyNow).logs = [autoLog 1] := by
  intro now
  constructor
  · rfl
  · rfl

/-- Claim C10: a falsy `building_id` or `floor` argument (absent, or `0`) is
dropped from the shutdown scope, because the source guards each SQL clause
with Python truthiness.  A shutdown with `floor = 0` therefore behaves like
an unscoped shutdown: every device of every non-critical room of the whole
facility is switched off, on any floor. -/
theorem C10_falsy_scope (now : Int) (s : DBState) :
    (emergency_shutdown now (some 0) (some 0) s).devices =
      (emergency_shutdown now none none s).devices ∧
    (emergency_shutdown now none (some 0) s).devices = s.devices.map (fun d =>
      if (s.rooms.filter (fun r => r.is_critical == false)).any
          (fun r => r.id == d.room_id) then
        { d with is_on := false, last_switched := now }
      else d) := by
  constructor
  · rfl
  · have hsc : s.rooms.filter (shutScope none (some 0)) =
        s.rooms.filter (fun r => r.is_critical == false) := by
      apply filter_congr_mem
      intro r _
      simp [shutScope, truthy]
    show s.devices.map (fun d =>
      if (s.rooms.filter (shutScope none (some 0))).any (fun r => r.id == d.room_id) then
        { d with is_on := false, last_switched := now }
      else d) = _
    rw [hsc]

/-- Claim C7: after an emergency shutdown scoped to building `B`, every
device of a non-critical room of `B` is off with its timestamp stamped,
every device of a critical room keeps its row unchanged (the source has no
force flag at all, so the exception of the claim never applies), devices of
other buildings or without a room row are unchanged, and exactly one
"Emergency Shutdown" log row recording the scope is appended; rooms and
alerts are untouched. -/
theorem C7_emergency_shutdown_building (s : DBState) (now : Int) (B : Nat)
    (hB : B ≠ 0)
    (hrn : (s.rooms.map (fun r => r.id)).Nodup)
    (hdn : (s.devices.map (fun d => d.id)).Nodup) :
    (emergency_shutdown now (some B) none s).rooms = s.rooms ∧
    (emergency_shutdown now (some B) none s).alerts = s.alerts ∧
    (emergency_shutdown now (some B) none s).logs = s.logs ++ [shutLog (some B) none] ∧
    ∀ d ∈ s.devices,
      (∀ r, s.rooms.find? (fun x => x.id == d.room_id) = some r →
        ((r.is_critical = false → r.building_id = B →
           devById (emergency_shutdown now (some B) none s) d.id =
             some { d with is_on := false, last_switched := now }) ∧
         (r.is_critical = true →
           devById (emergency_shutdown now (some B) none s) d.id = some d) ∧
         (r.building_id ≠ B →
           devById (emergency_shutdown now (some B) none s) d.id = some d))) ∧
      (s.rooms.find? (fun x => x.id == d.room_id) = none →
        devById (emergency_shutdown now (some B) none s) d.id = some d) := by
  have hgid : ∀ e : Device,
      ((fun d : Device => if (s.rooms.filter (shutScope (some B) none)).any
          (fun r => r.id == d.room_id) then
        { d with is_on := false, last_switched := now } else d) e).id = e.id := by
    intro e
    by_cases hc : (s.rooms.filter (shutScope (some B) none)).any
        (fun r => r.id == e.room_id) = true
    · simp [hc]
    · simp [hc]
  have hdev : ∀ d ∈ s.devices, devById (emergency_shutdown now (some B) none s) d.id =
      some (if (s.rooms.filter (shutScope (some B) none)).any
          (fun r => r.id == d.room_id) then
        { d with is_on := false, last_switched := now } else d) := by
    intro d hd
    unfold devById
    show (s.devices.map (fun d : Device =>
      if (s.rooms.filter (shutScope (some B) none)).any (fun r => r.id == d.room_id) then
        { d with is_on := false, last_switched := now }
      else d)).find? (fun x => x.id == d.id) = _
    rw [find?_map_pres s.devices _ d.id hgid, find?_self_of_nodup s.devices hdn d hd]
    rfl
  refine ⟨rfl, rfl, rfl, ?_⟩
  intro d hd
  constructor
  · intro r hr
    have hany := any_filter_of_find?_some s.rooms (shutScope (some B) none) d.room_id r
      hrn hr
    refine ⟨?_, ?_, ?_⟩
    · intro hcrit hbuild
      have hsc : shutScope (some B) none r = true := by
        simp [shutScope, truthy, hcrit, hbuild, hB]
      rw [hdev d hd, hany, hsc]
      rfl
    · intro hcrit
      have hsc : shutScope (some B) none r = false := by
        simp [shutScope, hcrit]
      rw [hdev d hd, hany, hsc]
      rfl
    · intro hbne
      have hbeq : (r.building_id == B) = false := by simpa using hbne
      have hsc : shutScope (some B) none r = false := by
        simp [shutScope, truthy, hB, hbeq]
      rw [hdev d hd, hany, hsc]
      rfl
  · intro hnone
    have hany0 := any_filter_of_find?_none s.rooms (shutScope (some B) none) d.room_id
      hnone
    rw [hdev d hd, hany0]
    rfl

/-- Witness for `C7_emergency_shutdown_building` at the concrete facility
`sShutW`, shutting down building 1. -/
theorem C7_emergency_shutdown_building_witness :
    (emergency_shutdown 500 (some 1) none sShutW).rooms = sShutW.rooms ∧
    (emergency_shutdown 500 (some 1) none sShutW).alerts = sShutW.alerts ∧
    (emergency_shutdown 500 (some 1) none sShutW).logs =
      sShutW.logs ++ [shutLog (some 1) none] ∧
    ∀ d ∈ sShutW.devices,
      (∀ r, sShutW.rooms.find? (fun x => x.id == d.room_id) = some r →
        ((r.is_critical = false → r.building_id = 1 →
           devById (emergency_shutdown 500 (some 1) none sShutW) d.id =
             some { d with is_on := false, last_switched := 500 }) ∧
         (r.is_critical = true →
           devById (emergency_shutdown 500 (some 1) none sShutW) d.id = some d) ∧
         (r.building_id ≠ 1 →
           devById (emergency_shutdown 500 (some 1) none sShutW) d.id = some d))) ∧
      (sShutW.rooms.find? (fun x => x.id == d.room_id) = none →
        devById (emergency_shutdown 500 (some 1) none sShutW) d.id = some d) :=
  C7_emergency_shutdown_building sShutW 500 1 (by decide) (by decide) (by decide)

theorem countP_ne_zero_of_mem {α : Type} (p : α → Bool) : ∀ (l : List α) (a : α),
    a ∈ l → p a = true → l.countP p ≠ 0 := by
  intro l
  induction l with
  | nil =>
    intro a ha
    cases ha
  | cons x t ih =>
    intro a ha hp
    rcases List.mem_cons.mp ha with h | h
    · rw [List.countP_cons]
      subst h
      simp [hp]
    · have hne := ih a h hp
      intro hzero
      rw [List.countP_cons] at hzero
      cases hpx : p x with
      | true =>
        rw [hpx] at hzero
        simp at hzero
      | false =>
        rw [hpx] at hzero
        simp at hzero
        have hpa := hzero a h
        rw [hpa] at hp
        cases hp

theorem applyStatus_fields (now : Int) (b : Bool) (kw : StatusKwargs)
    (r : DeviceStatusRow) :
    (applyStatus now b kw r).device_id = r.device_id ∧
    (applyStatus now b kw r).is_on = b ∧
    (b = true → (applyStatus now b kw r).last_switched_on = some now) ∧
    (b = false → (applyStatus now b kw r).last_switched_off = some now) ∧
    (applyStatus now b kw r).updated_at = now ∧
    (kw.switch_count = none → (applyStatus now b kw r).switch_count = r.switch_count) ∧
    (kw.runtime_minutes = none →
      (applyStatus now b kw r).runtime_minutes = r.runtime_minutes) := by
  unfold applyStatus
  rcases kw with ⟨rm, sc, ts, ss⟩
  cases b <;> cases rm <;> cases sc <;> cases ts <;> cases ss <;> simp

/-- Claim C8 (amended): when a status row for the device exists,
`update_device_status` always sets `is_on` to the requested value and stamps
`last_switched_on` (when switching on) or `last_switched_off` (when
switching off) and `updated_at` with the current instant — also when the
requested value equals the stored one, so a same-state update is not a
no-op.  `switch_count` and `runtime_minutes` are never changed unless an
explicit keyword value is passed; in particular a genuine transition does
not increment `switch_count`.  Other rows are untouched. -/
theorem C8_update_status_restamps (now : Int) (dev : String) (b : Bool)
    (kw : StatusKwargs) (tbl : List DeviceStatusRow) (row : DeviceStatusRow)
    (hnd : (tbl.map (fun r => r.device_id)).Nodup)
    (hrow : row ∈ tbl) (hid : row.device_id = dev) :
    ∃ pre post row2,
      tbl = pre ++ row :: post ∧
      (update_device_status now dev b kw tbl).1 = true ∧
      (update_device_status now dev b kw tbl).2 = pre ++ row2 :: post ∧
      row2.device_id = row.device_id ∧
      row2.is_on = b ∧
      (b = true → row2.last_switched_on = some now) ∧
      (b = false → row2.last_switched_off = some now) ∧
      row2.updated_at = now ∧
      (kw.switch_count = none → row2.switch_count = row.switch_count) ∧
      (kw.runtime_minutes = none → row2.runtime_minutes = row.runtime_minutes) := by
  obtain ⟨pre, post, hsplit⟩ := List.append_of_mem hrow
  have hne0 : tbl.countP (fun r => r.device_id == dev) ≠ 0 :=
    countP_ne_zero_of_mem _ tbl row hrow (by simp [hid])
  have hcond : (tbl.countP (fun r => r.device_id == dev) == 0) = false := by
    simpa using hne0
  have hupd : update_device_status now dev b kw tbl =
      (true, tbl.map (fun r =>
        if r.device_id == dev then applyStatus now b kw r else r)) := by
    unfold update_device_status
    rw [hcond]
    simp
  have hndsplit := hnd
  rw [hsplit, List.map_append, List.map_cons] at hndsplit
  have hmid := List.nodup_middle.mp hndsplit
  have hnotin : row.device_id ∉ pre.map (fun r => r.device_id) ++
      post.map (fun r => r.device_id) := (List.nodup_cons.mp hmid).1
  have hpre : ∀ x ∈ pre, (x.device_id == dev) = false := by
    intro x hx
    have hne : x.device_id ≠ dev := by
      intro he
      exact hnotin (List.mem_append_left _
        (List.mem_map.mpr ⟨x, hx, he.trans hid.symm⟩))
    simpa using hne
  have hpost : ∀ x ∈ post, (x.device_id == dev) = false := by
    intro x hx
    have hne : x.device_id ≠ dev := by
      intro he
      exact hnotin (List.mem_append_right _
        (List.mem_map.mpr ⟨x, hx, he.trans hid.symm⟩))
    simpa using hne
  have hfields := applyStatus_fields now b kw row
  refine ⟨pre, post, applyStatus now b kw row, hsplit, by rw [hupd], ?_,
    hfields.1, hfields.2.1, hfields.2.2.1, hfields.2.2.2.1, hfields.2.2.2.2.1,
    hfields.2.2.2.2.2.1, hfields.2.2.2.2.2.2⟩
  rw [hupd]
  show tbl.map (fun r => if r.device_id == dev then applyStatus now b kw r else r) = _
  rw [hsplit, List.map_append, List.map_cons]
  have h1 : pre.map (fun r => if r.device_id == dev then applyStatus now b kw r else r) =
      pre := by
    apply map_congr_id
    intro x hx
    rw [hpre x hx]
    simp
  have h2 : post.map (fun r => if r.device_id == dev then applyStatus now b kw r else r) =
      post := by
    apply map_congr_id
    intro x hx
    rw [hpost x hx]
    simp
  rw [h1, h2]
  have h3 : (if row.device_id == dev then applyStatus now b kw row else row) =
      applyStatus now b kw row := by
    simp [hid]
  rw [h3]

/-- Claim C8, counterexample to the claim as stated: row d1 is already on
with `last_switched_on = 100`; requesting `is_on = true` again restamps the
timestamp to 200 (so a same-state update is not a no-op), and the genuine
transition to `is_on = false` leaves `switch_count` at 5 instead of
incrementing it. -/
theorem C8_counterexample :
    tblStatus.map (fun r => r.is_on) = [true] ∧
    tblStatus.map (fun r => r.last_switched_on) = [some 100] ∧
    ((update_device_status 200 "d1" true {} tblStatus).2.map
      (fun r => r.last_switched_on)) = [some 200] ∧
    tblStatus.map (fun r => r.switch_count) = [5] ∧
    ((update_device_status 200 "d1" false {} tblStatus).2.map
      (fun r => r.switch_count)) = [5] := by decide

/-- Witness for `C8_update_status_restamps` at the one-row table
`tblStatus`. -/
theorem C8_update_status_restamps_witness :
    ∃ pre post row2,
      tblStatus = pre ++ rowStatus :: post ∧
      (update_device_status 200 "d1" true {} tblStatus).1 = true ∧
      (update_device_status 200 "d1" true {} tblStatus).2 = pre ++ row2 :: post ∧
      row2.device_id = rowStatus.device_id ∧
      row2.is_on = true ∧
      (true = true → row2.last_switched_on = some 200) ∧
      (true = false → row2.last_switched_off = some 200) ∧
      row2.updated_at = 200 ∧
      (({} : StatusKwargs).switch_count = none →
        row2.switch_count = rowStatus.switch_count) ∧
      (({} : StatusKwargs).runtime_minutes = none →
        row2.runtime_minutes = rowStatus.runtime_minutes) :=
  C8_update_status_restamps 200 "d1" true {} tblStatus rowStatus (by decide) (by decide)
    (by decide)

/-- Claim C9: `update_device_status` never reports a missing device: it
returns `True` on every input, and when no status row matches the
identifier (the function never consults the `devices` table at all, so this
includes identifiers of no known device) it appends a fresh row carrying the
requested `is_on` and the schema defaults for every other column. -/
theorem C9_update_status_inserts (now : Int) (dev : String) (b : Bool)
    (kw : StatusKwargs) (tbl : List DeviceStatusRow) :
    (update_device_status now dev b kw tbl).1 = true ∧
    (tbl.countP (fun r => r.device_id == dev) = 0 →
      (update_device_status now dev b kw tbl).2 =
        tbl ++ [{ device_id := dev, is_on := b, updated_at := now }]) := by
  constructor
  · unfold update_device_status
    split
    · rfl
    · rfl
  · intro h0
    unfold update_device_status
    simp [h0]

/-- Witness for `C9_update_status_inserts` on the empty status table. -/
theorem C9_update_status_inserts_witness :
    (update_device_status 7 "new-dev" true {} []).1 = true ∧
    (update_device_status 7 "new-dev" true {} []).2 =
      [] ++ [{ device_id := "new-dev", is_on := true, updated_at := 7 }] :=
  ⟨(C9_update_status_inserts 7 "new-dev" true {} []).1,
   (C9_update_status_inserts 7 "new-dev" true {} []).2 (by decide)⟩

theorem filter_roomP_id_frame (base : List Device) (R : Nat) (G : Device → Device)
    (P : Device → Bool)
    (hShape : ShapeG G)
    (hfix : ∀ e ∈ base, e.room_id = R → G e = e)
    (hProom : ∀ e : Device, P e = true → e.room_id = R) :
    (base.map G).filter P = base.filter P := by
  rw [filter_of_map]
  have hcong : ∀ e ∈ base, P (G e) = P e := by
    intro e he
    by_cases hroom : e.room_id = R
    · rw [hfix e he hroom]
    · cases hPG : P (G e) with
      | false =>
        cases hPe : P e with
        | false => rfl
        | true => exact absurd (hProom e hPe) hroom
      | true =>
        have hro := hProom _ hPG
        rw [(hShape e).2.1] at hro
        exact absurd hro hroom
  rw [filter_congr_mem _ _ base hcong]
  apply map_congr_id
  intro x hx
  exact hfix x (List.mem_filter.mp hx).1 (hProom x (List.mem_filter.mp hx).2)

/-- Behaviour of the inner device loop of the empty-room rule over an
arbitrary snapshot list `A` of rows whose identifiers are distinct and come
from the base state: every base row matched by an auto-controllable snapshot
row is switched off on top of its current image, every other row keeps its
image, and the appended log rows are exactly one "Auto OFF" row per
auto-controllable snapshot element, in order. -/
theorem auto_fold (s : DBState) (now : Int)
    (hnd : (s.devices.map (fun d => d.id)).Nodup) :
    ∀ (A : List Device) (st : DBState) (G : Device → Device),
      (A.map (fun d => d.id)).Nodup →
      (∀ x ∈ A, ∃ e ∈ s.devices, x.id = e.id) →
      st.devices = s.devices.map G →
      ShapeG G →
      ∃ G2,
        (A.foldl (autoOffStep now) st).devices = s.devices.map G2 ∧
        ShapeG G2 ∧
        (∀ e ∈ s.devices,
          ((∃ x ∈ A, x.id = e.id ∧ autoControllable x.device_type = true) →
            G2 e = updOff now e.id (G e)) ∧
          ((∀ x ∈ A, x.id ≠ e.id ∨ autoControllable x.device_type = false) →
            G2 e = G e)) ∧
        (A.foldl (autoOffStep now) st).logs =
          st.logs ++ (A.filter (fun x => autoControllable x.device_type)).map
            (fun x => autoLog x.id) ∧
        (A.foldl (autoOffStep now) st).rooms = st.rooms ∧
        (A.foldl (autoOffStep now) st).alerts = st.alerts := by
  intro A
  induction A with
  | nil =>
    intro st G _ _ hdev hG
    refine ⟨G, hdev, hG, ?_, by simp, rfl, rfl⟩
    intro e _
    refine ⟨?_, fun _ => rfl⟩
    intro h
    rcases h with ⟨x, hx, _⟩
    cases hx
  | cons x rest ih =>
    intro st G hAnd hAex hdev hG
    rw [List.foldl_cons]
    have hAndTail : (rest.map (fun d => d.id)).Nodup := by
      simpa using (List.nodup_cons.mp (by simpa using hAnd)).2
    have hxid_notin : x.id ∉ rest.map (fun d => d.id) :=
      (List.nodup_cons.mp (by simpa using hAnd)).1
    cases hauto : autoControllable x.device_type with
    | false =>
      have hstep : autoOffStep now st x = st := by
        unfold autoOffStep
        rw [hauto]
        rfl
      rw [hstep]
      rcases ih st G hAndTail (fun z hz => hAex z (by simp [hz])) hdev hG with
        ⟨G2, hdev2, hG2, hprops, hlogs, hrooms, halerts⟩
      refine ⟨G2, hdev2, hG2, ?_, ?_, hrooms, halerts⟩
      · intro e he
        constructor
        · intro hex
          rcases hex with ⟨x2, hx2, hid2, hauto2⟩
          rcases List.mem_cons.mp hx2 with h | h
          · rw [h] at hauto2
            rw [hauto2] at hauto
            cases hauto
          · exact (hprops e he).1 ⟨x2, h, hid2, hauto2⟩
        · intro hall
          exact (hprops e he).2 (fun z hz => hall z (List.mem_cons_of_mem x hz))
      · rw [hlogs]
        have : (x :: rest).filter (fun z => autoControllable z.device_type) =
            rest.filter (fun z => autoControllable z.device_type) := by
          simp [List.filter_cons, hauto]
        rw [this]
    | true =>
      have hstep : autoOffStep now st x =
          { st with
              devices := st.devices.map (updOff now x.id),
              logs := st.logs ++ [autoLog x.id] } := by
        unfold autoOffStep
        rw [hauto]
        rfl
      rw [hstep]
      have hdev2 : ({ st with
          devices := st.devices.map (updOff now x.id),
          logs := st.logs ++ [autoLog x.id] } : DBState).devices =
          s.devices.map (fun e => updOff now x.id (G e)) := by
        show st.devices.map (updOff now x.id) = _
        rw [hdev, List.map_map]
        rfl
      have hG2shape : ShapeG (fun e => updOff now x.id (G e)) :=
        shapeG_comp G (updOff now x.id) hG (shapeG_updOff now x.id)
      rcases ih _ (fun e => updOff now x.id (G e)) hAndTail
        (fun z hz => hAex z (by simp [hz])) hdev2 hG2shape with
        ⟨G2, hdev3, hG2, hprops, hlogs, hrooms, halerts⟩
      refine ⟨G2, hdev3, hG2, ?_, ?_, by rw [hrooms], by rw [halerts]⟩
      · intro e he
        constructor
        · intro hex
          rcases hex with ⟨x2, hx2, hid2, hauto2⟩
          rcases List.mem_cons.mp hx2 with h | h
          · -- x2 = x: the head already switched this row off; the tail
            -- never touches it again because snapshot ids are distinct
            have hxe : x.id = e.id := by rw [← h]; exact hid2
            have htail : ∀ z ∈ rest, z.id ≠ e.id ∨
                autoControllable z.device_type = false := by
              intro z hz
              left
              intro hze
              exact hxid_notin (by
                rw [← hxe] at hze
                exact List.mem_map.mpr ⟨z, hz, hze⟩)
            have := (hprops e he).2 htail
            rw [this, ← hxe]
          · -- x2 sits in the tail; the head does not touch this row
            have hxne : x.id ≠ e.id := by
              intro hxe
              have hx2id : x2.id = e.id := hid2
              apply hxid_notin
              rw [← hxe] at hx2id
              exact List.mem_map.mpr ⟨x2, h, hx2id⟩
            have := (hprops e he).1 ⟨x2, h, hid2, hauto2⟩
            rw [this]
            have hskip : updOff now x.id (G e) = G e :=
              updOff_skip now x.id (G e) (by rw [(hG e).1]; exact fun hh => hxne hh.symm)
            rw [hskip]
        · intro hall
          have hhd := hall x (by simp)
          rcases hhd with hne | hfalse
          · have := (hprops e he).2 (fun z hz => hall z (List.mem_cons_of_mem x hz))
            rw [this]
            exact updOff_skip now x.id (G e)
              (by rw [(hG e).1]; exact fun hh => hne hh.symm)
          · rw [hfalse] at hauto
            cases hauto
      · rw [hlogs]
        show (st.logs ++ [autoLog x.id]) ++ _ = _
        have : (x :: rest).filter (fun z => autoControllable z.device_type) =
            x :: rest.filter (fun z => autoControllable z.device_type) := by
          simp [List.filter_cons, hauto]
        rw [this, List.map_cons]
        simp [List.append_assoc]

theorem map_congr_fun {α β : Type} : ∀ (l : List α) (f g : α → β),
    (∀ a ∈ l, f a = g a) → l.map f = l.map g := by
  intro l
  induction l with
  | nil => intro f g _; rfl
  | cons a t ih =>
    intro f g h
    simp only [List.map_cons]
    rw [h a (by simp), ih f g (fun z hz => h z (by simp [hz]))]

theorem stdev_ids (s : DBState) (st : DBState) (G : Device → Device)
    (hdev : st.devices = s.devices.map G) (hG : ShapeG G) :
    st.devices.map (fun d => d.id) = s.devices.map (fun d => d.id) := by
  rw [hdev, List.map_map]
  exact map_congr_fun s.devices _ _ (fun e _ => (hG e).1)

/-- Frame of one room iteration of the empty-room rule: rows of other rooms
keep their current image, and the appended log rows all name devices of the
processed room. -/
theorem autoOffRoom_frame (s : DBState) (now : Int)
    (hnd : (s.devices.map (fun d => d.id)).Nodup)
    (rid : Nat) (st : DBState) (G : Device → Device)
    (hdev : st.devices = s.devices.map G) (hG : ShapeG G) :
    ∃ G2,
      (autoOffRoom now st rid).devices = s.devices.map G2 ∧
      ShapeG G2 ∧
      (∀ e ∈ s.devices, e.room_id ≠ rid → G2 e = G e) ∧
      ∃ E, (autoOffRoom now st rid).logs = st.logs ++ E ∧
        (∀ en ∈ E, ∃ i, en = autoLog i ∧
          ∃ e2 ∈ s.devices, e2.room_id = rid ∧ i = e2.id) ∧
        (autoOffRoom now st rid).rooms = st.rooms ∧
        (autoOffRoom now st rid).alerts = st.alerts := by
  have hroomEq : autoOffRoom now st rid =
      (st.devices.filter (fun d => d.room_id == rid && d.is_on)).foldl
        (autoOffStep now) st := rfl
  have hAmem : ∀ x ∈ st.devices.filter (fun d => d.room_id == rid && d.is_on),
      ∃ e2 ∈ s.devices, x.id = e2.id ∧ x.room_id = e2.room_id := by
    intro x hx
    have hxst : x ∈ st.devices := (List.mem_filter.mp hx).1
    rw [hdev] at hxst
    rcases List.mem_map.mp hxst with ⟨e2, he2, hGe2⟩
    refine ⟨e2, he2, ?_, ?_⟩
    · rw [← hGe2]
      exact (hG e2).1
    · rw [← hGe2]
      exact (hG e2).2.1
  have hAnd : ((st.devices.filter (fun d => d.room_id == rid && d.is_on)).map
      (fun d => d.id)).Nodup := by
    have hsub : ((st.devices.filter (fun d => d.room_id == rid && d.is_on)).map
        (fun d => d.id)).Sublist (st.devices.map (fun d => d.id)) :=
      List.Sublist.map _ (List.filter_sublist _)
    rw [stdev_ids s st G hdev hG] at hsub
    exact List.Nodup.sublist hsub hnd
  have hAex : ∀ x ∈ st.devices.filter (fun d => d.room_id == rid && d.is_on),
      ∃ e ∈ s.devices, x.id = e.id := by
    intro x hx
    rcases hAmem x hx with ⟨e2, he2, hid, _⟩
    exact ⟨e2, he2, hid⟩
  rcases auto_fold s now hnd (st.devices.filter (fun d => d.room_id == rid && d.is_on))
    st G hAnd hAex hdev hG with
    ⟨G2, hdev2, hG2, hprops, hlogs, hrooms, halerts⟩
  refine ⟨G2, by rw [hroomEq]; exact hdev2, hG2, ?_, ?_⟩
  · intro e he hne
    apply (hprops e he).2
    intro x hx
    left
    intro hxe
    rcases hAmem x hx with ⟨e2, he2, hid, hroom⟩
    have hxroom : x.room_id = rid := by
      have := (List.mem_filter.mp hx).2
      simp only [Bool.and_eq_true, beq_iff_eq] at this
      exact this.1
    have he2e : e2 = e := List.inj_on_of_nodup_map hnd he2 he (by rw [← hid]; exact hxe)
    apply hne
    rw [← he2e, ← hroom]
    exact hxroom
  · refine ⟨(((st.devices.filter (fun d => d.room_id == rid && d.is_on)).filter
      (fun x => autoControllable x.device_type)).map (fun x => autoLog x.id)),
      by rw [hroomEq]; exact hlogs, ?_, by rw [hroomEq]; exact hrooms,
      by rw [hroomEq]; exact halerts⟩
    intro en hen
    rcases List.mem_map.mp hen with ⟨x, hxmem, hxen⟩
    have hxA : x ∈ st.devices.filter (fun d => d.room_id == rid && d.is_on) :=
      (List.mem_filter.mp hxmem).1
    rcases hAmem x hxA with ⟨e2, he2, hid, hroom⟩
    have hxroom : x.room_id = rid := by
      have := (List.mem_filter.mp hxA).2
      simp only [Bool.and_eq_true, beq_iff_eq] at this
      exact this.1
    exact ⟨x.id, hxen.symm, e2, he2, by rw [← hroom]; exact hxroom, hid⟩

/-- Frame of the room loop of the empty-room rule over rooms other than the
tracked room `R`: rows of room `R` keep their image, and every appended log
row names a device outside room `R`. -/
theorem auto_rooms_fold (s : DBState) (now : Int)
    (hnd : (s.devices.map (fun d => d.id)).Nodup) (R : Nat) :
    ∀ (RL : List Room) (st : DBState) (G : Device → Device),
      (∀ r2 ∈ RL, r2.id ≠ R) →
      st.devices = s.devices.map G → ShapeG G →
      ∃ G2,
        (RL.foldl (fun st2 r2 => autoOffRoom now st2 r2.id) st).devices =
          s.devices.map G2 ∧
        ShapeG G2 ∧
        (∀ e ∈ s.devices, e.room_id = R → G2 e = G e) ∧
        ∃ E, (RL.foldl (fun st2 r2 => autoOffRoom now st2 r2.id) st).logs =
            st.logs ++ E ∧
          (∀ en ∈ E, ∃ i, en = autoLog i ∧
            ∀ e3 ∈ s.devices, e3.room_id = R → i ≠ e3.id) ∧
          (RL.foldl (fun st2 r2 => autoOffRoom now st2 r2.id) st).rooms = st.rooms ∧
          (RL.foldl (fun st2 r2 => autoOffRoom now st2 r2.id) st).alerts =
            st.alerts := by
  intro RL
  induction RL with
  | nil =>
    intro st G _ hdev hG
    exact ⟨G, hdev, hG, fun e _ _ => rfl, [], by simp, by simp, rfl, rfl⟩
  | cons r2 RT ih =>
    intro st G hne hdev hG
    rw [List.foldl_cons]
    rcases autoOffRoom_frame s now hnd r2.id st G hdev hG with
      ⟨G1, hdev1, hG1, hfix1, E1, hlog1, hE1, hrooms1, halerts1⟩
    rcases ih (autoOffRoom now st r2.id) G1 (fun z hz => hne z (by simp [hz]))
      hdev1 hG1 with ⟨G2, hdev2, hG2, hfix2, E2, hlog2, hE2, hrooms2, halerts2⟩
    refine ⟨G2, hdev2, hG2, ?_, E1 ++ E2, ?_, ?_, ?_, ?_⟩
    · intro e he heR
      rw [hfix2 e he heR]
      apply hfix1 e he
      rw [heR]
      exact fun h => hne r2 (by simp) h.symm
    · rw [hlog2, hlog1, List.append_assoc]
    · intro en hen
      rcases List.mem_append.mp hen with h | h
      · rcases hE1 en h with ⟨i, heni, e2, he2, he2room, hie2⟩
        refine ⟨i, heni, ?_⟩
        intro e3 he3 he3R hieq
        have he23 : e2 = e3 := List.inj_on_of_nodup_map hnd he2 he3
          (by rw [← hie2]; exact hieq)
        have : r2.id = R := by rw [← he2room, he23, he3R]
        exact hne r2 (by simp) this
      · exact hE2 en h
    · rw [hrooms2, hrooms1]
    · rw [halerts2, halerts1]

/-- Claim C6: in an unoccupied non-critical room whose running devices are
exactly a fan, an AC and a light, one empty-room pass switches the fan and
the light off, stamping `last_switched` with the current instant, leaves the
AC row untouched, and appends exactly one "Auto OFF" log row for the fan and
one for the light; every other appended row names a device other than these
two. -/
theorem C6_empty_room_auto_off (s : DBState) (now : Int) (r : Room) (f a l : Device)
    (hrn : (s.rooms.map (fun x => x.id)).Nodup)
    (hdn : (s.devices.map (fun x => x.id)).Nodup)
    (hr : r ∈ s.rooms) (hocc : r.occupancy = 0) (hcrit : r.is_critical = false)
    (hf : f ∈ s.devices) (ha : a ∈ s.devices) (hl : l ∈ s.devices)
    (hfr : f.room_id = r.id) (har : a.room_id = r.id) (hlr : l.room_id = r.id)
    (hft : f.device_type = "fan") (hat : a.device_type = "ac")
    (hlt : l.device_type = "light")
    (hfon : f.is_on = true) (haon : a.is_on = true) (hlon : l.is_on = true)
    (hexact : ∀ e ∈ s.devices, e.room_id = r.id → e.is_on = true →
      e = f ∨ e = a ∨ e = l) :
    devById (auto_control_empty_rooms true now s) f.id =
      some { f with is_on := false, last_switched := now } ∧
    devById (auto_control_empty_rooms true now s) l.id =
      some { l with is_on := false, last_switched := now } ∧
    devById (auto_control_empty_rooms true now s) a.id = some a ∧
    ∃ E, (auto_control_empty_rooms true now s).logs = s.logs ++ E ∧
      E.count (autoLog f.id) = 1 ∧
      E.count (autoLog l.id) = 1 ∧
      (∀ en ∈ E, en ≠ autoLog f.id → en ≠ autoLog l.id →
        ∃ i, en = autoLog i ∧ i ≠ f.id ∧ i ≠ l.id) := by
  have hsrn : s.rooms.Nodup := List.Nodup.of_map _ hrn
  have hrER : r ∈ s.rooms.filter (fun x => x.occupancy == 0 && x.is_critical == false) :=
    List.mem_filter.mpr ⟨hr, by simp [hocc, hcrit]⟩
  obtain ⟨R1, R2, hsplit⟩ := List.append_of_mem hrER
  have hERnd : (s.rooms.filter
      (fun x => x.occupancy == 0 && x.is_critical == false)).Nodup :=
    List.Nodup.filter _ hsrn
  rw [hsplit] at hERnd
  have hmid := List.nodup_middle.mp hERnd
  have hrnotin : r ∉ R1 ++ R2 := (List.nodup_cons.mp hmid).1
  have hR1mem : ∀ r2 ∈ R1, r2 ∈ s.rooms := by
    intro r2 h2
    have : r2 ∈ s.rooms.filter (fun x => x.occupancy == 0 && x.is_critical == false) := by
      rw [hsplit]
      exact List.mem_append_left _ h2
    exact (List.mem_filter.mp this).1
  have hR2mem : ∀ r2 ∈ R2, r2 ∈ s.rooms := by
    intro r2 h2
    have : r2 ∈ s.rooms.filter (fun x => x.occupancy == 0 && x.is_critical == false) := by
      rw [hsplit]
      exact List.mem_append_right _ (List.mem_cons_of_mem r h2)
    exact (List.mem_filter.mp this).1
  have hR1ne : ∀ r2 ∈ R1, r2.id ≠ r.id := by
    intro r2 h2 hid2
    have hr2r : r2 = r := List.inj_on_of_nodup_map hrn (hR1mem r2 h2) hr hid2
    exact hrnotin (List.mem_append_left _ (hr2r ▸ h2))
  have hR2ne : ∀ r2 ∈ R2, r2.id ≠ r.id := by
    intro r2 h2 hid2
    have hr2r : r2 = r := List.inj_on_of_nodup_map hrn (hR2mem r2 h2) hr hid2
    exact hrnotin (List.mem_append_right _ (hr2r ▸ h2))
  rcases auto_rooms_fold s now hdn r.id R1 s (fun e => e) hR1ne
    (by rw [List.map_id']) (fun e => ⟨rfl, rfl, rfl, rfl, rfl⟩) with
    ⟨G1, hdev1, hG1, hfix1, E1, hlog1, hE1, _, _⟩
  have hfix1' : ∀ e ∈ s.devices, e.room_id = r.id → G1 e = e := hfix1
  have hAtrans : (R1.foldl (fun st2 r2 => autoOffRoom now st2 r2.id) s).devices.filter
      (fun d => d.room_id == r.id && d.is_on) =
      s.devices.filter (fun d => d.room_id == r.id && d.is_on) := by
    rw [hdev1]
    exact filter_roomP_id_frame s.devices r.id G1 _ hG1 hfix1'
      (fun e hP => by
        simp only [Bool.and_eq_true, beq_iff_eq] at hP
        exact hP.1)
  have hmidEq : autoOffRoom now (R1.foldl (fun st2 r2 => autoOffRoom now st2 r2.id) s)
      r.id = (s.devices.filter (fun d => d.room_id == r.id && d.is_on)).foldl
        (autoOffStep now) (R1.foldl (fun st2 r2 => autoOffRoom now st2 r2.id) s) := by
    show ((R1.foldl (fun st2 r2 => autoOffRoom now st2 r2.id) s).devices.filter
      (fun d => d.room_id == r.id && d.is_on)).foldl (autoOffStep now) _ = _
    rw [hAtrans]
  have hAfnd : ((s.devices.filter (fun d => d.room_id == r.id && d.is_on)).map
      (fun d => d.id)).Nodup := by
    have hsub : ((s.devices.filter (fun d => d.room_id == r.id && d.is_on)).map
        (fun d => d.id)).Sublist (s.devices.map (fun d => d.id)) :=
      List.Sublist.map _ (List.filter_sublist _)
    exact List.Nodup.sublist hsub hdn
  have hAfex : ∀ x ∈ s.devices.filter (fun d => d.room_id == r.id && d.is_on),
      ∃ e ∈ s.devices, x.id = e.id := by
    intro x hx
    exact ⟨x, (List.mem_filter.mp hx).1, rfl⟩
  rcases auto_fold s now hdn (s.devices.filter (fun d => d.room_id == r.id && d.is_on))
    (R1.foldl (fun st2 r2 => autoOffRoom now st2 r2.id) s) G1 hAfnd hAfex hdev1 hG1 with
    ⟨G2, hdev2m, hG2, hprops, hlogsm, _, _⟩
  have hfF : f ∈ s.devices.filter (fun d => d.room_id == r.id && d.is_on) :=
    List.mem_filter.mpr ⟨hf, by simp [hfr, hfon]⟩
  have hlF : l ∈ s.devices.filter (fun d => d.room_id == r.id && d.is_on) :=
    List.mem_filter.mpr ⟨hl, by simp [hlr, hlon]⟩
  have hG2f : G2 f = { f with is_on := false, last_switched := now } := by
    have h1 := (hprops f hf).1 ⟨f, hfF, rfl, by rw [hft]; decide⟩
    rw [hfix1' f hf hfr] at h1
    rw [h1]
    exact updOff_hit now f
  have hG2l : G2 l = { l with is_on := false, last_switched := now } := by
    have h1 := (hprops l hl).1 ⟨l, hlF, rfl, by rw [hlt]; decide⟩
    rw [hfix1' l hl hlr] at h1
    rw [h1]
    exact updOff_hit now l
  have hG2a : G2 a = a := by
    have h2 := (hprops a ha).2 (by
      intro x hx
      by_cases hxa : x.id = a.id
      · right
        have hxs : x ∈ s.devices := (List.mem_filter.mp hx).1
        have hxa2 : x = a := List.inj_on_of_nodup_map hdn hxs ha hxa
        rw [hxa2, hat]
        decide
      · left
        exact hxa)
    rw [hfix1' a ha har] at h2
    exact h2
  have hdevMid : (autoOffRoom now
      (R1.foldl (fun st2 r2 => autoOffRoom now st2 r2.id) s) r.id).devices =
      s.devices.map G2 := by
    rw [hmidEq]
    exact hdev2m
  rcases auto_rooms_fold s now hdn r.id R2
    (autoOffRoom now (R1.foldl (fun st2 r2 => autoOffRoom now st2 r2.id) s) r.id)
    G2 hR2ne hdevMid hG2 with ⟨G3, hdev3, hG3, hfix3, E3, hlog3, hE3, _, _⟩
  have hpassEq : auto_control_empty_rooms true now s =
      R2.foldl (fun st2 r2 => autoOffRoom now st2 r2.id)
        (autoOffRoom now (R1.foldl (fun st2 r2 => autoOffRoom now st2 r2.id) s) r.id) := by
    show (s.rooms.filter (fun x => x.occupancy == 0 && x.is_critical == false)).foldl
      (fun st2 r2 => autoOffRoom now st2 r2.id) s = _
    rw [hsplit, List.foldl_append, List.foldl_cons]
  have hdevF : (auto_control_empty_rooms true now s).devices = s.devices.map G3 := by
    rw [hpassEq]
    exact hdev3
  refine ⟨?_, ?_, ?_, ?_⟩
  · unfold devById
    rw [hdevF, find?_map_pres s.devices G3 f.id (fun e => (hG3 e).1),
      find?_self_of_nodup s.devices hdn f hf]
    show some (G3 f) = _
    rw [hfix3 f hf hfr, hG2f]
  · unfold devById
    rw [hdevF, find?_map_pres s.devices G3 l.id (fun e => (hG3 e).1),
      find?_self_of_nodup s.devices hdn l hl]
    show some (G3 l) = _
    rw [hfix3 l hl hlr, hG2l]
  · unfold devById
    rw [hdevF, find?_map_pres s.devices G3 a.id (fun e => (hG3 e).1),
      find?_self_of_nodup s.devices hdn a ha]
    show some (G3 a) = _
    rw [hfix3 a ha har, hG2a]
  · have hZsub : ∀ x ∈ (s.devices.filter
        (fun d => d.room_id == r.id && d.is_on)).filter
        (fun x => autoControllable x.device_type), x ∈ s.devices := by
      intro x hx
      exact (List.mem_filter.mp ((List.mem_filter.mp hx).1)).1
    have hZnodup : ((s.devices.filter (fun d => d.room_id == r.id && d.is_on)).filter
        (fun x => autoControllable x.device_type)).Nodup :=
      List.Nodup.filter _ (List.Nodup.filter _ (List.Nodup.of_map _ hdn))
    have hfZ : f ∈ (s.devices.filter (fun d => d.room_id == r.id && d.is_on)).filter
        (fun x => autoControllable x.device_type) :=
      List.mem_filter.mpr ⟨hfF, by rw [hft]; decide⟩
    have hlZ : l ∈ (s.devices.filter (fun d => d.room_id == r.id && d.is_on)).filter
        (fun x => autoControllable x.device_type) :=
      List.mem_filter.mpr ⟨hlF, by rw [hlt]; decide⟩
    have hMnodup : (((s.devices.filter (fun d => d.room_id == r.id && d.is_on)).filter
        (fun x => autoControllable x.device_type)).map
          (fun x => autoLog x.id)).Nodup := by
      apply List.Nodup.map_on _ hZnodup
      intro x hx y hy hxy
      have hids : x.id = y.id := autoLog_inj x.id y.id hxy
      exact List.inj_on_of_nodup_map hdn (hZsub x hx) (hZsub y hy) hids
    have hcountMf : (((s.devices.filter (fun d => d.room_id == r.id && d.is_on)).filter
        (fun x => autoControllable x.device_type)).map
          (fun x => autoLog x.id)).count (autoLog f.id) = 1 :=
      List.count_eq_one_of_mem hMnodup (List.mem_map.mpr ⟨f, hfZ, rfl⟩)
    have hcountMl : (((s.devices.filter (fun d => d.room_id == r.id && d.is_on)).filter
        (fun x => autoControllable x.device_type)).map
          (fun x => autoLog x.id)).count (autoLog l.id) = 1 :=
      List.count_eq_one_of_mem hMnodup (List.mem_map.mpr ⟨l, hlZ, rfl⟩)
    have hE1zero : ∀ j : Nat, j = f.id ∨ j = l.id → E1.count (autoLog j) = 0 := by
      intro j hj
      apply List.count_eq_zero.mpr
      intro hmem
      rcases hE1 _ hmem with ⟨i, heq, hforall⟩
      have hij : j = i := autoLog_inj j i heq
      rcases hj with hjf | hjl
      · exact hforall f hf hfr (by rw [← hij, hjf])
      · exact hforall l hl hlr (by rw [← hij, hjl])
    have hE3zero : ∀ j : Nat, j = f.id ∨ j = l.id → E3.count (autoLog j) = 0 := by
      intro j hj
      apply List.count_eq_zero.mpr
      intro hmem
      rcases hE3 _ hmem with ⟨i, heq, hforall⟩
      have hij : j = i := autoLog_inj j i heq
      rcases hj with hjf | hjl
      · exact hforall f hf hfr (by rw [← hij, hjf])
      · exact hforall l hl hlr (by rw [← hij, hjl])
    refine ⟨E1 ++ ((s.devices.filter (fun d => d.room_id == r.id && d.is_on)).filter
        (fun x => autoControllable x.device_type)).map (fun x => autoLog x.id) ++ E3,
      ?_, ?_, ?_, ?_⟩
    · rw [hpassEq, hlog3, hmidEq, hlogsm, hlog1]
      simp [List.append_assoc]
    · rw [List.count_append, List.count_append, hcountMf,
        hE1zero f.id (Or.inl rfl), hE3zero f.id (Or.inl rfl)]
    · rw [List.count_append, List.count_append, hcountMl,
        hE1zero l.id (Or.inr rfl), hE3zero l.id (Or.inr rfl)]
    · intro en hen hnef hnel
      rcases List.mem_append.mp hen with hen2 | hen3
      · rcases List.mem_append.mp hen2 with hen1 | henM
        · rcases hE1 _ hen1 with ⟨i, heq, hforall⟩
          exact ⟨i, heq, hforall f hf hfr, hforall l hl hlr⟩
        · rcases List.mem_map.mp henM with ⟨x, hxZ, hxen⟩
          have hxF : x ∈ s.devices.filter (fun d => d.room_id == r.id && d.is_on) :=
            (List.mem_filter.mp hxZ).1
          have hxauto : autoControllable x.device_type = true :=
            (List.mem_filter.mp hxZ).2
          have hxs : x ∈ s.devices := (List.mem_filter.mp hxF).1
          have hxP := (List.mem_filter.mp hxF).2
          simp only [Bool.and_eq_true, beq_iff_eq] at hxP
          rcases hexact x hxs hxP.1 hxP.2 with hxf | hxa | hxl
          · exact absurd (by rw [← hxen, hxf]) hnef
          · rw [hxa, hat] at hxauto
            exact absurd hxauto (by decide)
          · exact absurd (by rw [← hxen, hxl]) hnel
      · rcases hE3 _ hen3 with ⟨i, heq, hforall⟩
        exact ⟨i, heq, hforall f hf hfr, hforall l hl hlr⟩

/-- Witness for `C6_empty_room_auto_off` at the two-room state `sAutoW`. -/
theorem C6_empty_room_auto_off_witness :
    devById (auto_control_empty_rooms true 900 sAutoW) fanC6.id =
      some { fanC6 with is_on := false, last_switched := 900 } ∧
    devById (auto_control_empty_rooms true 900 sAutoW) lightC6.id =
      some { lightC6 with is_on := false, last_switched := 900 } ∧
    devById (auto_control_empty_rooms true 900 sAutoW) acC6.id = some acC6 ∧
    ∃ E, (auto_control_empty_rooms true 900 sAutoW).logs = sAutoW.logs ++ E ∧
      E.count (autoLog fanC6.id) = 1 ∧
      E.count (autoLog lightC6.id) = 1 ∧
      (∀ en ∈ E, en ≠ autoLog fanC6.id → en ≠ autoLog lightC6.id →
        ∃ i, en = autoLog i ∧ i ≠ fanC6.id ∧ i ≠ lightC6.id) :=
  C6_empty_room_auto_off sAutoW 900 ⟨1, 101, 0, false, false, 1, 1⟩ fanC6 acC6 lightC6
    (by decide) (by decide) (by decide) (by decide) (by decide) (by decide) (by decide)
    (by decide) (by decide) (by decide) (by decide) (by decide) (by decide) (by decide)
    (by decide) (by decide) (by decide) (by decide)
